import Mathlib

/-!
Shallow embedding of the request-construction and time-series normalization
core of the `energy_data_repo` pipeline, together with theorems checking the
specification's claims against it.

Source files embedded here:
* `src/transformers/parsers/entsoe_parser.py` (generation / prices / load parsers)
* `src/transformers/parsers/elexon_parser.py` (physical notifications, bid-offer)
* `src/connectors/elexon.py` (legacy connector: client init, parameter generator)
* `src/connectors/elexon/api_client.py`, `src/connectors/elexon/parameter_builder.py`
* `src/connectors/entsoe.py`, `src/connectors/entsoe/connector.py`,
  `src/connectors/entsoe/parameter_builder.py`

Conventions of the embedding:
* Timestamps are integers counting minutes (pandas `Timestamp` arithmetic with
  minute-unit `Timedelta`s is exact integer-minute arithmetic everywhere the
  embedded code uses it); `Option Int` encodes a possibly-`NaT` timestamp.
* Calendar days are integers (day numbers); `dateStr` stands for
  `date.strftime('%Y-%m-%d')`, which is injective on days, so the day number's
  decimal rendering is a faithful stand-in for the formatted date.
* Python dicts of request parameters are association lists with
  last-write-wins update (`pset`) and first-match lookup (`pget`), mirroring
  `dict.__setitem__` / `dict.get`.
* Python exceptions are `Except PyErr`; a branch of the source that catches an
  exception and returns an empty `DataFrame` is `.ok []`.
* Numeric cell values (MW, prices) are rationals; the embedded claims never
  compute with them, they are carried through unchanged.
-/

/-- Python exception kinds raised by the embedded code paths. -/
inductive PyErr where
  | attributeError
  | valueError
  | typeError
  | keyError
  deriving DecidableEq, Repr

/-- Association-list update with the semantics of `d[k] = v` on a Python dict:
replace the value of an existing key in place, otherwise append. -/
def pset {α : Type} (ps : List (String × α)) (k : String) (v : α) :
    List (String × α) :=
  if ps.any (fun kv => kv.1 = k) then
    ps.map (fun kv => if kv.1 = k then (k, v) else kv)
  else
    ps ++ [(k, v)]

/-- Association-list lookup with the semantics of `d.get(k)` on a Python dict. -/
def pget {α : Type} (ps : List (String × α)) (k : String) : Option α :=
  (ps.find? (fun kv => kv.1 = k)).map (fun kv => kv.2)

theorem find?_update_self {α : Type} {k : String} {v : α} :
    ∀ ps : List (String × α), ps.any (fun kv => kv.1 = k) = true →
      (ps.map (fun kv => if kv.1 = k then (k, v) else kv)).find?
        (fun kv => kv.1 = k) = some (k, v) := by
  intro ps h
  induction ps with
  | nil => simp at h
  | cons kv ps ih =>
    by_cases hk : kv.1 = k
    · simp [List.find?_cons_of_pos, hk]
    · simp only [List.any_cons, Bool.or_eq_true, decide_eq_true_eq] at h
      rcases h with h | h
      · exact absurd h hk
      · simpa [if_neg hk, List.find?_cons_of_neg, hk] using ih h

theorem find?_update_ne {α : Type} {k k' : String} {v : α} (hne : k ≠ k') :
    ∀ ps : List (String × α),
      (ps.map (fun kv => if kv.1 = k then (k, v) else kv)).find?
        (fun kv => kv.1 = k') = ps.find? (fun kv => kv.1 = k') := by
  intro ps
  induction ps with
  | nil => simp
  | cons kv ps ih =>
    by_cases hk : kv.1 = k
    · have hkv : ¬ kv.1 = k' := fun hx => hne (hk ▸ hx)
      simp only [List.map_cons, if_pos hk]
      rw [List.find?_cons_of_neg _ (by simpa using hne),
          List.find?_cons_of_neg _ (by simpa using hkv)]
      exact ih
    · by_cases hkv : kv.1 = k'
      · simp only [List.map_cons, if_neg hk]
        rw [List.find?_cons_of_pos _ (by simpa using hkv),
            List.find?_cons_of_pos _ (by simpa using hkv)]
      · simp only [List.map_cons, if_neg hk]
        rw [List.find?_cons_of_neg _ (by simpa using hkv),
            List.find?_cons_of_neg _ (by simpa using hkv)]
        exact ih

theorem pget_pset_self {α : Type} (ps : List (String × α)) (k : String) (v : α) :
    pget (pset ps k v) k = some v := by
  unfold pget pset
  split
  · rename_i h
    rw [find?_update_self ps h]
    rfl
  · rename_i h
    rw [Bool.not_eq_true] at h
    induction ps with
    | nil => simp [List.find?]
    | cons kv ps ih =>
      simp only [List.any_cons, Bool.or_eq_false_iff, decide_eq_false_iff_not] at h
      simp only [List.cons_append]
      rw [List.find?_cons_of_neg _ (by simpa using h.1)]
      exact ih (by simpa using h.2)

theorem pget_pset_ne {α : Type} (ps : List (String × α)) (k k' : String) (v : α)
    (hne : k ≠ k') : pget (pset ps k v) k' = pget ps k' := by
  unfold pget pset
  split
  · rw [find?_update_ne hne ps]
  · rw [List.find?_append]
    have : List.find? (fun kv => kv.1 = k') [(k, v)] = none := by
      simp [List.find?, hne]
    rw [this]
    cases List.find? (fun kv => kv.1 = k') ps <;> rfl

/-- Substring test, modelling Python's `pat in s`. -/
def strContains (s pat : String) : Bool :=
  (List.range (s.toList.length + 1)).any
    (fun i => pat.toList.isPrefixOf (s.toList.drop i))

/-- Characters-from-the-left strip, first half of Python's `str.strip(chars)`. -/
def pyLStrip (chars : List Char) (s : List Char) : List Char :=
  s.dropWhile (fun c => chars.contains c)

/-- Characters-from-the-right strip, second half of Python's `str.strip(chars)`. -/
def pyRStrip (chars : List Char) (s : List Char) : List Char :=
  (pyLStrip chars s.reverse).reverse

/-- Python's `str.strip(chars)`: remove any of `chars` from both ends. -/
def pyStrip (chars : String) (s : String) : String :=
  String.mk (pyRStrip chars.toList (pyLStrip chars.toList s.toList))

/-- Python's `int(str)` on the forms the embedded code can meet: an optional
sign followed by one or more decimal digits; anything else raises
`ValueError`. -/
def pyInt (s : String) : Except PyErr Int :=
  let cs := s.toList
  let (neg, ds) :=
    match cs with
    | '-' :: rest => (true, rest)
    | '+' :: rest => (false, rest)
    | rest => (false, rest)
  if ds ≠ [] ∧ ds.all (fun c => c.isDigit) then
    let n : Nat := ds.foldl (fun acc c => acc * 10 + (c.toNat - '0'.toNat)) 0
    .ok (if neg then -(n : Int) else (n : Int))
  else
    .error .valueError

/-- First maximal run of decimal digits in a string, as a number: models
`re.search(r"(\d+)", s)` followed by `int(m.group(1))`. -/
def firstNat (s : String) : Option Nat :=
  let rec go : List Char → Option Nat
    | [] => none
    | c :: cs =>
      if c.isDigit then
        some (((c :: cs).takeWhile (fun d => d.isDigit)).foldl
          (fun acc d => acc * 10 + (d.toNat - '0'.toNat)) 0)
      else go cs
  go s.toList

/-- Python's `f"{n:02d}"` for the settlement-period suffix. -/
def pad2 (n : Nat) : String :=
  if n < 10 then "0" ++ toString n else toString n

/-- Rendering of a day number; stands for `date.strftime('%Y-%m-%d')`, which
is injective on calendar days. -/
def dateStr (d : Nat) : String := toString d

/-- Rendering of a day number at midnight; stands for
`date.strftime('%Y%m%d%H%M')` as used by the ENTSO-E builder. -/
def entsoeDT (d : Nat) : String := toString d ++ "0000"

/-- Closed form of the inclusive day window `[s, e]`. -/
def daysList (s e : Nat) : List Nat :=
  (List.range (e + 1 - s)).map (fun i => s + i)

/-- One iteration count of the `while current <= end:` loop: the loop body
runs while `s ≤ e`, so `e + 1 - s` iterations suffice; recursion is on that
count so the definition evaluates structurally. -/
def dayLoopGo {α : Type} (f : Nat → List α) : Nat → Nat → Nat → List α
  | 0, _, _ => []
  | fuel + 1, s, e => if s ≤ e then f s ++ dayLoopGo f fuel (s + 1) e else []

/-- The `while current <= end:` loop shared by every per-day parameter
generator in the source: emit `f current`, advance one day. -/
def dayLoop {α : Type} (f : Nat → List α) (s e : Nat) : List α :=
  dayLoopGo f (e + 1 - s) s e

theorem daysList_cons {s e : Nat} (h : s ≤ e) :
    daysList s e = s :: daysList (s + 1) e := by
  unfold daysList
  have h1 : e + 1 - s = (e + 1 - (s + 1)) + 1 := by omega
  rw [h1, List.range_succ_eq_map]
  simp only [List.map_cons, List.map_map, Nat.add_zero]
  congr 1
  apply List.map_congr_left
  intro i _
  simp [Function.comp, Nat.succ_eq_add_one]
  omega

theorem daysList_nil {s e : Nat} (h : ¬ s ≤ e) : daysList s e = [] := by
  unfold daysList
  have : e + 1 - s = 0 := by omega
  rw [this]
  rfl

theorem dayLoopGo_eq_flatMap {α : Type} (f : Nat → List α) :
    ∀ (n s e : Nat), e + 1 - s = n →
      dayLoopGo f n s e = (daysList s e).flatMap f := by
  intro n
  induction n with
  | zero =>
    intro s e hn
    rw [daysList_nil (by omega)]
    rfl
  | succ n ih =>
    intro s e hn
    have hse : s ≤ e := by omega
    rw [dayLoopGo, if_pos hse, daysList_cons hse, List.flatMap_cons,
        ih (s + 1) e (by omega)]

theorem dayLoop_eq_flatMap {α : Type} (f : Nat → List α) (s e : Nat) :
    dayLoop f s e = (daysList s e).flatMap f :=
  dayLoopGo_eq_flatMap f (e + 1 - s) s e rfl

theorem daysList_length (s e : Nat) : (daysList s e).length = e + 1 - s := by
  simp [daysList]

theorem daysList_getElem (s e : Nat) (i : Nat) (h : i < (daysList s e).length) :
    (daysList s e)[i] = s + i := by
  simp [daysList]

/-- Index computation through a concatenation of equal-length blocks: entry
`i` of `xs.flatMap F` is entry `i % k` of block `i / k` when every block has
length `k`. -/
theorem flatMap_blocks_length {α β : Type} (F : α → List β) (k : Nat)
    (hF : ∀ a, (F a).length = k) :
    ∀ xs : List α, (xs.flatMap F).length = xs.length * k := by
  intro xs
  induction xs with
  | nil => simp
  | cons x xs ih => simp [List.flatMap_cons, hF, ih, Nat.succ_mul, Nat.add_comm]

theorem flatMap_blocks_getElem {α β : Type} (F : α → List β) (k : Nat)
    (hk : 0 < k) (hF : ∀ a, (F a).length = k) :
    ∀ (xs : List α) (i : Nat) (hi : i < (xs.flatMap F).length)
      (hd : i / k < xs.length) (hm : i % k < (F (xs[i / k])).length),
      (xs.flatMap F)[i] = (F (xs[i / k]))[i % k] := by
  intro xs
  induction xs with
  | nil => intro i hi; simp at hi
  | cons x xs ih =>
    intro i hi hd hm
    have hFx : (F x).length = k := hF x
    have hlen : ((x :: xs).flatMap F).length = (F x).length + (xs.flatMap F).length := by
      rw [List.flatMap_cons, List.length_append]
    by_cases hik : i < k
    · have hdiv : i / k = 0 := Nat.div_eq_of_lt hik
      have hmod : i % k = i := Nat.mod_eq_of_lt hik
      simp only [List.flatMap_cons]
      rw [List.getElem_append_left (by rw [hFx]; exact hik)]
      simp only [hdiv, hmod, List.getElem_cons_zero]
    · push_neg at hik
      have hsub : i - k < (xs.flatMap F).length := by omega
      have hik2 : (F x).length ≤ i := by omega
      have hi' : i = (i - k) + k := by omega
      have hdiv : i / k = (i - k) / k + 1 := by
        conv_lhs => rw [hi']
        rw [Nat.add_div_right _ hk]
      have hmod : i % k = (i - k) % k := by
        conv_lhs => rw [hi']
        rw [Nat.add_mod_right]
      simp only [List.flatMap_cons]
      rw [List.getElem_append_right hik2]
      have hd' : (i - k) / k < xs.length := by
        rw [hdiv] at hd
        simpa using hd
      have hm' : (i - k) % k < (F xs[(i - k) / k]).length := by
        rw [hF]; exact Nat.mod_lt _ hk
      simp only [hFx]
      rw [ih (i - k) hsub hd' hm']
      simp only [hdiv, hmod, List.getElem_cons_succ]

/-- Resolution-token conversion of the generation and load parsers
(`entsoe_parser.py` lines 57 and 166): `int(resolution_str.strip('PTM'))`. -/
def resolutionMinutesGen (s : String) : Except PyErr Int :=
  pyInt (pyStrip "PTM" s)

/-- Resolution-token conversion of the prices parser (`entsoe_parser.py`
lines 112-115): hour tokens are recognised and multiplied by 60. -/
def resolutionMinutesPrices (s : String) : Except PyErr Int :=
  if strContains s "H" then
    (pyInt (pyStrip "PTH" s)).map (fun n => n * 60)
  else
    pyInt (pyStrip "PTM" s)

/-- Resolution-token conversion of the physical-notification parser
(`elexon_parser.py` lines 155-156 and 189-190): first run of digits in the
token, defaulting to 30 when there is none. -/
def resolutionMinutesPN (s : String) : Int :=
  match firstNat s with
  | some n => (n : Int)
  | none => 30

/-- A `Point` element of an ENTSO-E time-series document. A field is `none`
when the child element is missing (or its text cannot be converted), in which
case reading it with `.find(...).text` raises and reading it with a guard
skips. -/
structure XPoint where
  position : Option Int
  quantity : Option Rat
  priceAmount : Option Rat
  deriving DecidableEq, Repr

/-- A `Period` element: interval start (minutes, `none` when
`timeInterval/start` is missing), raw resolution token, points. -/
structure XPeriod where
  start : Option Int
  resolution : Option String
  points : List XPoint
  deriving DecidableEq, Repr

/-- A `TimeSeries` element of an ENTSO-E document. `find('e:Period')` yields
the first `Period`, hence a single optional period. -/
structure XSeries where
  psrType : Option String
  period : Option XPeriod
  deriving DecidableEq, Repr

/-- A parsed ENTSO-E document is its list of `TimeSeries` blocks; the whole
input is `none` when `ET.parse` raises `ParseError` (malformed XML). -/
abbrev XDoc := List XSeries

/-- One normalized generation record (`timestamp_utc, fuel_type,
generation_mw`). -/
structure GenRecord where
  ts : Int
  fuel : String
  mw : Rat
  deriving DecidableEq, Repr

/-- One normalized price record. -/
structure PriceRecord where
  ts : Int
  price : Rat
  deriving DecidableEq, Repr

/-- One normalized load record. -/
structure LoadRecord where
  ts : Int
  mw : Rat
  deriving DecidableEq, Repr

/-- Point loop of `parse_generation` (`entsoe_parser.py` lines 60-75):
`position` and `quantity` are read without a guard, so a missing child raises
`AttributeError`; the timestamp is start plus `(position-1) * resolution`
minutes. -/
def genPointsLoop (st res : Int) (fuel : String) :
    List XPoint → Except PyErr (List GenRecord)
  | [] => .ok []
  | pt :: pts =>
    match pt.position with
    | none => .error .attributeError
    | some pos =>
      match pt.quantity with
      | none => .error .attributeError
      | some q =>
        match genPointsLoop st res fuel pts with
        | .error e => .error e
        | .ok rest => .ok ({ ts := st + (pos - 1) * res, fuel := fuel, mw := q } :: rest)

/-- Series loop of `parse_generation` (`entsoe_parser.py` lines 43-75): skip
series without `psrType` or `Period`; read start and resolution without a
guard (raising when missing); `int(resolution_str.strip('PTM'))`. -/
def genSeriesLoop : List XSeries → Except PyErr (List GenRecord)
  | [] => .ok []
  | s :: ss =>
    match s.psrType with
    | none => genSeriesLoop ss
    | some fuel =>
      match s.period with
      | none => genSeriesLoop ss
      | some per =>
        match per.start with
        | none => .error .attributeError
        | some st =>
          match per.resolution with
          | none => .error .attributeError
          | some rtok =>
            match resolutionMinutesGen rtok with
            | .error e => .error e
            | .ok res =>
              match genPointsLoop st res fuel per.points with
              | .error e => .error e
              | .ok here =>
                match genSeriesLoop ss with
                | .error e => .error e
                | .ok rest => .ok (here ++ rest)

/-- `parse_generation` (`entsoe_parser.py` lines 18-78). `none` input stands
for a document on which `ET.parse` raises (caught, empty DataFrame). -/
def parse_generation : Option XDoc → Except PyErr (List GenRecord)
  | none => .ok []
  | some doc => genSeriesLoop doc

/-- Point loop of `parse_prices` (`entsoe_parser.py` lines 118-131):
`position` is unguarded, `price.amount` is guarded by a `None` check and the
point is skipped when it is missing. -/
def pricePointsLoop (st res : Int) :
    List XPoint → Except PyErr (List PriceRecord)
  | [] => .ok []
  | pt :: pts =>
    match pt.position with
    | none => .error .attributeError
    | some pos =>
      match pt.priceAmount with
      | none => pricePointsLoop st res pts
      | some pr =>
        match pricePointsLoop st res pts with
        | .error e => .error e
        | .ok rest => .ok ({ ts := st + (pos - 1) * res, price := pr } :: rest)

/-- Series loop of `parse_prices` (`entsoe_parser.py` lines 104-131); the
resolution conversion has the hour branch. -/
def priceSeriesLoop : List XSeries → Except PyErr (List PriceRecord)
  | [] => .ok []
  | s :: ss =>
    match s.period with
    | none => priceSeriesLoop ss
    | some per =>
      match per.start with
      | none => .error .attributeError
      | some st =>
        match per.resolution with
        | none => .error .attributeError
        | some rtok =>
          match resolutionMinutesPrices rtok with
          | .error e => .error e
          | .ok res =>
            match pricePointsLoop st res per.points with
            | .error e => .error e
            | .ok here =>
              match priceSeriesLoop ss with
              | .error e => .error e
              | .ok rest => .ok (here ++ rest)

/-- `parse_prices` (`entsoe_parser.py` lines 82-133). -/
def parse_prices : Option XDoc → Except PyErr (List PriceRecord)
  | none => .ok []
  | some doc => priceSeriesLoop doc

/-- Point loop of `parse_load` (`entsoe_parser.py` lines 169-182):
`position` unguarded, `quantity` guarded. -/
def loadPointsLoop (st res : Int) :
    List XPoint → Except PyErr (List LoadRecord)
  | [] => .ok []
  | pt :: pts =>
    match pt.position with
    | none => .error .attributeError
    | some pos =>
      match pt.quantity with
      | none => loadPointsLoop st res pts
      | some q =>
        match loadPointsLoop st res pts with
        | .error e => .error e
        | .ok rest => .ok ({ ts := st + (pos - 1) * res, mw := q } :: rest)

/-- Series loop of `parse_load` (`entsoe_parser.py` lines 159-182); the
resolution conversion is `int(resolution_str.strip('PTM'))`, without an hour
branch. -/
def loadSeriesLoop : List XSeries → Except PyErr (List LoadRecord)
  | [] => .ok []
  | s :: ss =>
    match s.period with
    | none => loadSeriesLoop ss
    | some per =>
      match per.start with
      | none => .error .attributeError
      | some st =>
        match per.resolution with
        | none => .error .attributeError
        | some rtok =>
          match resolutionMinutesGen rtok with
          | .error e => .error e
          | .ok res =>
            match loadPointsLoop st res per.points with
            | .error e => .error e
            | .ok here =>
              match loadSeriesLoop ss with
              | .error e => .error e
              | .ok rest => .ok (here ++ rest)

/-- `parse_load` (`entsoe_parser.py` lines 137-184). -/
def parse_load : Option XDoc → Except PyErr (List LoadRecord)
  | none => .ok []
  | some doc => loadSeriesLoop doc

/-- A point of the physical-notification JSON branch (`elexon_parser.py`
lines 160-166): `position` is `None` when the key is absent, `quantity`
is coerced with `errors='coerce'`. -/
structure PNJPoint where
  position : Option Int
  quantity : Option Rat
  deriving DecidableEq, Repr

/-- A period of the physical-notification JSON branch, after the dict-to-list
normalization the source applies: `start` is `NaT`-or-time, `resolution`
defaults handled at use site. -/
structure PNJPeriod where
  start : Option Int
  resolution : Option String
  points : List PNJPoint
  deriving DecidableEq, Repr

/-- A `timeSeries` item of the physical-notification JSON branch. -/
structure PNJItem where
  bmUnitID : Option String
  periods : List PNJPeriod
  deriving DecidableEq, Repr

/-- A point of the physical-notification XML branch: `findtext('position')`
is `None` when missing (then `int(None)` raises `TypeError`). -/
structure PNXPoint where
  position : Option Int
  quantity : Option Rat
  deriving DecidableEq, Repr

/-- A period of the physical-notification XML branch. -/
structure PNXPeriod where
  start : Option Int
  resolution : Option String
  points : List PNXPoint
  deriving DecidableEq, Repr

/-- A `timeSeries` element of the physical-notification XML branch. -/
structure PNXSeries where
  bmUnitID : Option String
  periods : List PNXPeriod
  deriving DecidableEq, Repr

/-- One normalized physical-notification record; the timestamp is `None`
when position is falsy or the start time is `NaT`. -/
structure PNRecord where
  ts : Option Int
  bmUnit : Option String
  mw : Option Rat
  deriving DecidableEq, Repr

/-- Timestamp of one JSON-branch physical-notification point
(`elexon_parser.py` lines 161-166): set only when `position` is truthy
(present and nonzero) and the start time is not `NaT`. -/
def pnJsonPointTs (st : Option Int) (res : Int) (pos : Option Int) : Option Int :=
  match pos, st with
  | some p, some s => if p ≠ 0 then some (s + (p - 1) * res) else none
  | _, _ => none

/-- JSON branch of `parse_physical_notifications` (`elexon_parser.py`
lines 134-172), over already-decoded items; the branch catches its own
exceptions, so it is total. -/
def pnParseJson (items : List PNJItem) : List PNRecord :=
  items.flatMap (fun it =>
    it.periods.flatMap (fun per =>
      let res := resolutionMinutesPN (per.resolution.getD "PT30M")
      per.points.map (fun pt =>
        { ts := pnJsonPointTs per.start res pt.position
          bmUnit := it.bmUnitID
          mw := pt.quantity })))

/-- Point loop of the XML branch of `parse_physical_notifications`
(`elexon_parser.py` lines 191-199): `int(point.findtext('position'))` raises
`TypeError` when the element is missing; `NaT + timedelta` stays `NaT`. -/
def pnXmlPointsLoop (st : Option Int) (res : Int) (bmUnit : Option String) :
    List PNXPoint → Except PyErr (List PNRecord)
  | [] => .ok []
  | pt :: pts =>
    match pt.position with
    | none => .error .typeError
    | some pos =>
      match pnXmlPointsLoop st res bmUnit pts with
      | .error e => .error e
      | .ok rest =>
        .ok ({ ts := st.map (fun s => s + (pos - 1) * res)
               bmUnit := bmUnit
               mw := pt.quantity } :: rest)

/-- Period loop of the XML branch of `parse_physical_notifications`
(`elexon_parser.py` lines 186-199): resolution defaults to `PT30M`. -/
def pnXmlPeriodsLoop (bmUnit : Option String) :
    List PNXPeriod → Except PyErr (List PNRecord)
  | [] => .ok []
  | per :: pers =>
    let res := resolutionMinutesPN (per.resolution.getD "PT30M")
    match pnXmlPointsLoop per.start res bmUnit per.points with
    | .error e => .error e
    | .ok here =>
      match pnXmlPeriodsLoop bmUnit pers with
      | .error e => .error e
      | .ok rest => .ok (here ++ rest)

/-- XML branch of `parse_physical_notifications` (`elexon_parser.py`
lines 183-200). -/
def pnParseXml : List PNXSeries → Except PyErr (List PNRecord)
  | [] => .ok []
  | ts :: rest =>
    match pnXmlPeriodsLoop ts.bmUnitID ts.periods with
    | .error e => .error e
    | .ok here =>
      match pnParseXml rest with
      | .error e => .error e
      | .ok tail => .ok (here ++ tail)

/-- Raw input shape of an Elexon parser: JSON-decodable content, XML-parsable
content, or content that is neither (both decoders raise, caught, empty
DataFrame). -/
inductive ElexonDoc (j x : Type) where
  | jsonDoc (items : j)
  | xmlDoc (root : x)
  | malformed
  deriving Repr

/-- `parse_physical_notifications` (`elexon_parser.py` lines 130-200):
JSON first; on JSON failure fall back to XML; `ET.ParseError` is caught and
yields an empty frame. -/
def parse_physical_notifications :
    ElexonDoc (List PNJItem) (List PNXSeries) → Except PyErr (List PNRecord)
  | .jsonDoc items => .ok (pnParseJson items)
  | .xmlDoc root => pnParseXml root
  | .malformed => .ok []

/-- A bid-offer item of the JSON branch (`elexon_parser.py` lines 211-222). -/
structure BOJItem where
  settlementDate : Option Int
  settlementPeriod : Option Int
  bmUnitID : Option String
  bidPrice : Option Rat
  offerPrice : Option Rat
  bidVolume : Option Rat
  offerVolume : Option Rat
  deriving DecidableEq, Repr

/-- A bid-offer `item` element of the XML branch (`elexon_parser.py`
lines 234-246). -/
structure BOXItem where
  settlementDate : Option Int
  settlementPeriod : Option Int
  bmUnitID : Option String
  bidPrice : Option Rat
  offerPrice : Option Rat
  bidVolume : Option Rat
  offerVolume : Option Rat
  deriving DecidableEq, Repr

/-- One normalized bid-offer record. -/
structure BORecord where
  ts : Option Int
  bmUnit : Option String
  bidPrice : Option Rat
  offerPrice : Option Rat
  bidVolume : Option Rat
  offerVolume : Option Rat
  deriving DecidableEq, Repr

/-- JSON branch of `parse_bid_offer_data` (`elexon_parser.py` lines 207-223):
`int(item.get('settlementPeriod') or 0)` defaults the period to `0`;
`settlement_date + to_timedelta((p - 0.5) * 30, unit='m')` is exactly
`date + (30*p - 15)` minutes, `NaT` propagating. -/
def boParseJson (items : List BOJItem) : List BORecord :=
  items.map (fun it =>
    let sp := it.settlementPeriod.getD 0
    { ts := it.settlementDate.map (fun d => d + (30 * sp - 15))
      bmUnit := it.bmUnitID
      bidPrice := it.bidPrice
      offerPrice := it.offerPrice
      bidVolume := it.bidVolume
      offerVolume := it.offerVolume })

/-- XML branch of `parse_bid_offer_data` (`elexon_parser.py` lines 233-246):
`int(item.findtext('settlementPeriod'))` raises `TypeError` when missing;
the timestamp line is the same midpoint formula. -/
def boParseXml : List BOXItem → Except PyErr (List BORecord)
  | [] => .ok []
  | it :: its =>
    match it.settlementPeriod with
    | none => .error .typeError
    | some sp =>
      match boParseXml its with
      | .error e => .error e
      | .ok rest =>
        .ok ({ ts := it.settlementDate.map (fun d => d + (30 * sp - 15))
               bmUnit := it.bmUnitID
               bidPrice := it.bidPrice
               offerPrice := it.offerPrice
               bidVolume := it.bidVolume
               offerVolume := it.offerVolume } :: rest)

/-- `parse_bid_offer_data` (`elexon_parser.py` lines 203-247). -/
def parse_bid_offer_data :
    ElexonDoc (List BOJItem) (List BOXItem) → Except PyErr (List BORecord)
  | .jsonDoc items => .ok (boParseJson items)
  | .xmlDoc root => boParseXml root
  | .malformed => .ok []

theorem genPointsLoop_mem {st res : Int} {fuel : String} :
    ∀ {pts : List XPoint} {recs : List GenRecord} {r : GenRecord},
      genPointsLoop st res fuel pts = .ok recs → r ∈ recs →
      ∃ pt ∈ pts, ∃ pos, pt.position = some pos ∧ r.ts = st + (pos - 1) * res := by
  intro pts
  induction pts with
  | nil =>
    intro recs r h hr
    simp only [genPointsLoop, Except.ok.injEq] at h
    subst h
    simp at hr
  | cons pt pts ih =>
    intro recs r h hr
    simp only [genPointsLoop] at h
    split at h
    · exact absurd h (by simp)
    · rename_i pos hpos
      split at h
      · exact absurd h (by simp)
      · rename_i q hq
        split at h
        · exact absurd h (by simp)
        · rename_i rest hrec
          simp only [Except.ok.injEq] at h
          subst h
          rcases List.mem_cons.mp hr with h1 | h1
          · exact ⟨pt, List.mem_cons_self .., pos, hpos, by rw [h1]⟩
          · obtain ⟨pt', hpt', pos', hpos', hts⟩ := ih hrec h1
            exact ⟨pt', List.mem_cons_of_mem _ hpt', pos', hpos', hts⟩

theorem genSeriesLoop_mem :
    ∀ {ss : List XSeries} {recs : List GenRecord} {r : GenRecord},
      genSeriesLoop ss = .ok recs → r ∈ recs →
      ∃ s ∈ ss, ∃ per, s.period = some per ∧
        ∃ st, per.start = some st ∧
        ∃ rtok, per.resolution = some rtok ∧
        ∃ res, resolutionMinutesGen rtok = .ok res ∧
        ∃ pt ∈ per.points, ∃ pos, pt.position = some pos ∧
          r.ts = st + (pos - 1) * res := by
  intro ss
  induction ss with
  | nil =>
    intro recs r h hr
    simp only [genSeriesLoop, Except.ok.injEq] at h
    subst h
    simp at hr
  | cons s ss ih =>
    intro recs r h hr
    simp only [genSeriesLoop] at h
    split at h
    · obtain ⟨s', hs', rest⟩ := ih h hr
      exact ⟨s', List.mem_cons_of_mem _ hs', rest⟩
    · rename_i fuel hfuel
      split at h
      · obtain ⟨s', hs', rest⟩ := ih h hr
        exact ⟨s', List.mem_cons_of_mem _ hs', rest⟩
      · rename_i per hper
        split at h
        · exact absurd h (by simp)
        · rename_i st hst
          split at h
          · exact absurd h (by simp)
          · rename_i rtok hrtok
            split at h
            · exact absurd h (by simp)
            · rename_i res hres
              split at h
              · exact absurd h (by simp)
              · rename_i here hhere
                split at h
                · exact absurd h (by simp)
                · rename_i rest hrest
                  simp only [Except.ok.injEq] at h
                  subst h
                  rcases List.mem_append.mp hr with h1 | h1
                  · obtain ⟨pt, hpt, pos, hpos, hts⟩ := genPointsLoop_mem hhere h1
                    exact ⟨s, List.mem_cons_self .., per, hper, st, hst, rtok, hrtok,
                      res, hres, pt, hpt, pos, hpos, hts⟩
                  · obtain ⟨s', hs', rest'⟩ := ih hrest h1
                    exact ⟨s', List.mem_cons_of_mem _ hs', rest'⟩

theorem pricePointsLoop_mem {st res : Int} :
    ∀ {pts : List XPoint} {recs : List PriceRecord} {r : PriceRecord},
      pricePointsLoop st res pts = .ok recs → r ∈ recs →
      ∃ pt ∈ pts, ∃ pos, pt.position = some pos ∧ r.ts = st + (pos - 1) * res := by
  intro pts
  induction pts with
  | nil =>
    intro recs r h hr
    simp only [pricePointsLoop, Except.ok.injEq] at h
    subst h
    simp at hr
  | cons pt pts ih =>
    intro recs r h hr
    simp only [pricePointsLoop] at h
    split at h
    · exact absurd h (by simp)
    · rename_i pos hpos
      split at h
      · obtain ⟨pt', hpt', rest⟩ := ih h hr
        exact ⟨pt', List.mem_cons_of_mem _ hpt', rest⟩
      · rename_i pr hpr
        split at h
        · exact absurd h (by simp)
        · rename_i rest hrec
          simp only [Except.ok.injEq] at h
          subst h
          rcases List.mem_cons.mp hr with h1 | h1
          · exact ⟨pt, List.mem_cons_self .., pos, hpos, by rw [h1]⟩
          · obtain ⟨pt', hpt', pos', hpos', hts⟩ := ih hrec h1
            exact ⟨pt', List.mem_cons_of_mem _ hpt', pos', hpos', hts⟩

theorem priceSeriesLoop_mem :
    ∀ {ss : List XSeries} {recs : List PriceRecord} {r : PriceRecord},
      priceSeriesLoop ss = .ok recs → r ∈ recs →
      ∃ s ∈ ss, ∃ per, s.period = some per ∧
        ∃ st, per.start = some st ∧
        ∃ rtok, per.resolution = some rtok ∧
        ∃ res, resolutionMinutesPrices rtok = .ok res ∧
        ∃ pt ∈ per.points, ∃ pos, pt.position = some pos ∧
          r.ts = st + (pos - 1) * res := by
  intro ss
  induction ss with
  | nil =>
    intro recs r h hr
    simp only [priceSeriesLoop, Except.ok.injEq] at h
    subst h
    simp at hr
  | cons s ss ih =>
    intro recs r h hr
    simp only [priceSeriesLoop] at h
    split at h
    · obtain ⟨s', hs', rest⟩ := ih h hr
      exact ⟨s', List.mem_cons_of_mem _ hs', rest⟩
    · rename_i per hper
      split at h
      · exact absurd h (by simp)
      · rename_i st hst
        split at h
        · exact absurd h (by simp)
        · rename_i rtok hrtok
          split at h
          · exact absurd h (by simp)
          · rename_i res hres
            split at h
            · exact absurd h (by simp)
            · rename_i here hhere
              split at h
              · exact absurd h (by simp)
              · rename_i rest hrest
                simp only [Except.ok.injEq] at h
                subst h
                rcases List.mem_append.mp hr with h1 | h1
                · obtain ⟨pt, hpt, pos, hpos, hts⟩ := pricePointsLoop_mem hhere h1
                  exact ⟨s, List.mem_cons_self .., per, hper, st, hst, rtok, hrtok,
                    res, hres, pt, hpt, pos, hpos, hts⟩
                · obtain ⟨s', hs', rest'⟩ := ih hrest h1
                  exact ⟨s', List.mem_cons_of_mem _ hs', rest'⟩

theorem loadPointsLoop_mem {st res : Int} :
    ∀ {pts : List XPoint} {recs : List LoadRecord} {r : LoadRecord},
      loadPointsLoop st res pts = .ok recs → r ∈ recs →
      ∃ pt ∈ pts, ∃ pos, pt.position = some pos ∧ r.ts = st + (pos - 1) * res := by
  intro pts
  induction pts with
  | nil =>
    intro recs r h hr
    simp only [loadPointsLoop, Except.ok.injEq] at h
    subst h
    simp at hr
  | cons pt pts ih =>
    intro recs r h hr
    simp only [loadPointsLoop] at h
    split at h
    · exact absurd h (by simp)
    · rename_i pos hpos
      split at h
      · obtain ⟨pt', hpt', rest⟩ := ih h hr
        exact ⟨pt', List.mem_cons_of_mem _ hpt', rest⟩
      · rename_i q hq
        split at h
        · exact absurd h (by simp)
        · rename_i rest hrec
          simp only [Except.ok.injEq] at h
          subst h
          rcases List.mem_cons.mp hr with h1 | h1
          · exact ⟨pt, List.mem_cons_self .., pos, hpos, by rw [h1]⟩
          · obtain ⟨pt', hpt', pos', hpos', hts⟩ := ih hrec h1
            exact ⟨pt', List.mem_cons_of_mem _ hpt', pos', hpos', hts⟩

theorem loadSeriesLoop_mem :
    ∀ {ss : List XSeries} {recs : List LoadRecord} {r : LoadRecord},
      loadSeriesLoop ss = .ok recs → r ∈ recs →
      ∃ s ∈ ss, ∃ per, s.period = some per ∧
        ∃ st, per.start = some st ∧
        ∃ rtok, per.resolution = some rtok ∧
        ∃ res, resolutionMinutesGen rtok = .ok res ∧
        ∃ pt ∈ per.points, ∃ pos, pt.position = some pos ∧
          r.ts = st + (pos - 1) * res := by
  intro ss
  induction ss with
  | nil =>
    intro recs r h hr
    simp only [loadSeriesLoop, Except.ok.injEq] at h
    subst h
    simp at hr
  | cons s ss ih =>
    intro recs r h hr
    simp only [loadSeriesLoop] at h
    split at h
    · obtain ⟨s', hs', rest⟩ := ih h hr
      exact ⟨s', List.mem_cons_of_mem _ hs', rest⟩
    · rename_i per hper
      split at h
      · exact absurd h (by simp)
      · rename_i st hst
        split at h
        · exact absurd h (by simp)
        · rename_i rtok hrtok
          split at h
          · exact absurd h (by simp)
          · rename_i res hres
            split at h
            · exact absurd h (by simp)
            · rename_i here hhere
              split at h
              · exact absurd h (by simp)
              · rename_i rest hrest
                simp only [Except.ok.injEq] at h
                subst h
                rcases List.mem_append.mp hr with h1 | h1
                · obtain ⟨pt, hpt, pos, hpos, hts⟩ := loadPointsLoop_mem hhere h1
                  exact ⟨s, List.mem_cons_self .., per, hper, st, hst, rtok, hrtok,
                    res, hres, pt, hpt, pos, hpos, hts⟩
                · obtain ⟨s', hs', rest'⟩ := ih hrest h1
                  exact ⟨s', List.mem_cons_of_mem _ hs', rest'⟩

theorem pnParseJson_mem {items : List PNJItem} {r : PNRecord}
    (hr : r ∈ pnParseJson items) :
    ∃ it ∈ items, ∃ per ∈ it.periods, ∃ pt ∈ per.points,
      r.ts = pnJsonPointTs per.start
        (resolutionMinutesPN (per.resolution.getD "PT30M")) pt.position := by
  simp only [pnParseJson, List.mem_flatMap, List.mem_map] at hr
  obtain ⟨it, hit, per, hper, pt, hpt, hrec⟩ := hr
  exact ⟨it, hit, per, hper, pt, hpt, by rw [← hrec]⟩

theorem pnXmlPointsLoop_mem {st : Option Int} {res : Int} {bmUnit : Option String} :
    ∀ {pts : List PNXPoint} {recs : List PNRecord} {r : PNRecord},
      pnXmlPointsLoop st res bmUnit pts = .ok recs → r ∈ recs →
      ∃ pt ∈ pts, ∃ pos, pt.position = some pos ∧
        r.ts = st.map (fun s => s + (pos - 1) * res) := by
  intro pts
  induction pts with
  | nil =>
    intro recs r h hr
    simp only [pnXmlPointsLoop, Except.ok.injEq] at h
    subst h
    simp at hr
  | cons pt pts ih =>
    intro recs r h hr
    simp only [pnXmlPointsLoop] at h
    split at h
    · exact absurd h (by simp)
    · rename_i pos hpos
      split at h
      · exact absurd h (by simp)
      · rename_i rest hrec
        simp only [Except.ok.injEq] at h
        subst h
        rcases List.mem_cons.mp hr with h1 | h1
        · exact ⟨pt, List.mem_cons_self .., pos, hpos, by rw [h1]⟩
        · obtain ⟨pt', hpt', pos', hpos', hts⟩ := ih hrec h1
          exact ⟨pt', List.mem_cons_of_mem _ hpt', pos', hpos', hts⟩

theorem pnXmlPeriodsLoop_mem {bmUnit : Option String} :
    ∀ {pers : List PNXPeriod} {recs : List PNRecord} {r : PNRecord},
      pnXmlPeriodsLoop bmUnit pers = .ok recs → r ∈ recs →
      ∃ per ∈ pers, ∃ pt ∈ per.points, ∃ pos, pt.position = some pos ∧
        r.ts = per.start.map (fun s =>
          s + (pos - 1) * resolutionMinutesPN (per.resolution.getD "PT30M")) := by
  intro pers
  induction pers with
  | nil =>
    intro recs r h hr
    simp only [pnXmlPeriodsLoop, Except.ok.injEq] at h
    subst h
    simp at hr
  | cons per pers ih =>
    intro recs r h hr
    simp only [pnXmlPeriodsLoop] at h
    split at h
    · exact absurd h (by simp)
    · rename_i here hhere
      split at h
      · exact absurd h (by simp)
      · rename_i rest hrest
        simp only [Except.ok.injEq] at h
        subst h
        rcases List.mem_append.mp hr with h1 | h1
        · obtain ⟨pt, hpt, pos, hpos, hts⟩ := pnXmlPointsLoop_mem hhere h1
          exact ⟨per, List.mem_cons_self .., pt, hpt, pos, hpos, hts⟩
        · obtain ⟨per', hper', rest'⟩ := ih hrest h1
          exact ⟨per', List.mem_cons_of_mem _ hper', rest'⟩

theorem pnParseXml_mem :
    ∀ {root : List PNXSeries} {recs : List PNRecord} {r : PNRecord},
      pnParseXml root = .ok recs → r ∈ recs →
      ∃ ts ∈ root, ∃ per ∈ ts.periods, ∃ pt ∈ per.points,
        ∃ pos, pt.position = some pos ∧
        r.ts = per.start.map (fun s =>
          s + (pos - 1) * resolutionMinutesPN (per.resolution.getD "PT30M")) := by
  intro root
  induction root with
  | nil =>
    intro recs r h hr
    simp only [pnParseXml, Except.ok.injEq] at h
    subst h
    simp at hr
  | cons ts rest ih =>
    intro recs r h hr
    simp only [pnParseXml] at h
    split at h
    · exact absurd h (by simp)
    · rename_i here hhere
      split at h
      · exact absurd h (by simp)
      · rename_i tail htail
        simp only [Except.ok.injEq] at h
        subst h
        rcases List.mem_append.mp hr with h1 | h1
        · obtain ⟨per, hper, rest'⟩ := pnXmlPeriodsLoop_mem hhere h1
          exact ⟨ts, List.mem_cons_self .., per, hper, rest'⟩
        · obtain ⟨ts', hts', rest'⟩ := ih htail h1
          exact ⟨ts', List.mem_cons_of_mem _ hts', rest'⟩

theorem boParseXml_mem :
    ∀ {root : List BOXItem} {recs : List BORecord} {r : BORecord},
      boParseXml root = .ok recs → r ∈ recs →
      ∃ it ∈ root, ∃ sp, it.settlementPeriod = some sp ∧
        r.ts = it.settlementDate.map (fun d => d + (30 * sp - 15)) := by
  intro root
  induction root with
  | nil =>
    intro recs r h hr
    simp only [boParseXml, Except.ok.injEq] at h
    subst h
    simp at hr
  | cons it its ih =>
    intro recs r h hr
    simp only [boParseXml] at h
    split at h
    · exact absurd h (by simp)
    · rename_i sp hsp
      split at h
      · exact absurd h (by simp)
      · rename_i rest hrest
        simp only [Except.ok.injEq] at h
        subst h
        rcases List.mem_cons.mp hr with h1 | h1
        · exact ⟨it, List.mem_cons_self .., sp, hsp, by rw [h1]⟩
        · obtain ⟨it', hit', rest'⟩ := ih hrest h1
          exact ⟨it', List.mem_cons_of_mem _ hit', rest'⟩

/-- C1: for every parsed time-series document (generation, price, load,
physical notification, in both document encodings), every emitted record's
timestamp equals the Period's start time plus `(position - 1)` times the
resolution in minutes; with `position = 1` this is the unchanged start time,
and with resolution 15 and `position = 4` it is start plus 45 minutes (the
witness demonstrates both instances). -/
theorem c1_timestamp_reconstruction :
    (∀ (inp : Option XDoc) (recs : List GenRecord) (r : GenRecord),
      parse_generation inp = .ok recs → r ∈ recs →
      ∃ doc, inp = some doc ∧ ∃ s ∈ doc, ∃ per, s.period = some per ∧
        ∃ st, per.start = some st ∧ ∃ rtok, per.resolution = some rtok ∧
        ∃ res, resolutionMinutesGen rtok = .ok res ∧
        ∃ pt ∈ per.points, ∃ pos, pt.position = some pos ∧
          r.ts = st + (pos - 1) * res)
    ∧
    (∀ (inp : Option XDoc) (recs : List PriceRecord) (r : PriceRecord),
      parse_prices inp = .ok recs → r ∈ recs →
      ∃ doc, inp = some doc ∧ ∃ s ∈ doc, ∃ per, s.period = some per ∧
        ∃ st, per.start = some st ∧ ∃ rtok, per.resolution = some rtok ∧
        ∃ res, resolutionMinutesPrices rtok = .ok res ∧
        ∃ pt ∈ per.points, ∃ pos, pt.position = some pos ∧
          r.ts = st + (pos - 1) * res)
    ∧
    (∀ (inp : Option XDoc) (recs : List LoadRecord) (r : LoadRecord),
      parse_load inp = .ok recs → r ∈ recs →
      ∃ doc, inp = some doc ∧ ∃ s ∈ doc, ∃ per, s.period = some per ∧
        ∃ st, per.start = some st ∧ ∃ rtok, per.resolution = some rtok ∧
        ∃ res, resolutionMinutesGen rtok = .ok res ∧
        ∃ pt ∈ per.points, ∃ pos, pt.position = some pos ∧
          r.ts = st + (pos - 1) * res)
    ∧
    (∀ (items : List PNJItem) (recs : List PNRecord) (r : PNRecord),
      parse_physical_notifications (.jsonDoc items) = .ok recs → r ∈ recs →
      ∃ it ∈ items, ∃ per ∈ it.periods, ∃ pt ∈ per.points,
        r.ts = pnJsonPointTs per.start
          (resolutionMinutesPN (per.resolution.getD "PT30M")) pt.position ∧
        ∀ pos st, pt.position = some pos → per.start = some st → pos ≠ 0 →
          r.ts = some (st + (pos - 1) *
            resolutionMinutesPN (per.resolution.getD "PT30M")))
    ∧
    (∀ (root : List PNXSeries) (recs : List PNRecord) (r : PNRecord),
      parse_physical_notifications (.xmlDoc root) = .ok recs → r ∈ recs →
      ∃ ts ∈ root, ∃ per ∈ ts.periods, ∃ pt ∈ per.points,
        ∃ pos, pt.position = some pos ∧
        r.ts = per.start.map (fun s =>
          s + (pos - 1) * resolutionMinutesPN (per.resolution.getD "PT30M"))) := by
  refine ⟨?_, ?_, ?_, ?_, ?_⟩
  · intro inp recs r h hr
    cases inp with
    | none =>
      simp only [parse_generation, Except.ok.injEq] at h
      subst h
      simp at hr
    | some doc => exact ⟨doc, rfl, genSeriesLoop_mem h hr⟩
  · intro inp recs r h hr
    cases inp with
    | none =>
      simp only [parse_prices, Except.ok.injEq] at h
      subst h
      simp at hr
    | some doc => exact ⟨doc, rfl, priceSeriesLoop_mem h hr⟩
  · intro inp recs r h hr
    cases inp with
    | none =>
      simp only [parse_load, Except.ok.injEq] at h
      subst h
      simp at hr
    | some doc => exact ⟨doc, rfl, loadSeriesLoop_mem h hr⟩
  · intro items recs r h hr
    simp only [parse_physical_notifications, Except.ok.injEq] at h
    subst h
    obtain ⟨it, hit, per, hper, pt, hpt, hts⟩ := pnParseJson_mem hr
    refine ⟨it, hit, per, hper, pt, hpt, hts, ?_⟩
    intro pos st hpos hst hpz
    rw [hts]
    simp [pnJsonPointTs, hpos, hst, hpz]
  · intro root recs r h hr
    exact pnParseXml_mem h hr

/-- Witness for C1: a concrete generation document with resolution token
`PT15M` and points at positions 1 and 4 starting at minute 0; the record at
position 1 keeps the start time (0) and the record at position 4 lands at
minute 45. -/
theorem c1_timestamp_reconstruction_witness :
    parse_generation
        (some [⟨some "B16", some ⟨some 0, some "PT15M",
          [⟨some 1, some 100, none⟩, ⟨some 4, some 200, none⟩]⟩⟩]) =
      .ok [⟨0, "B16", 100⟩, ⟨45, "B16", 200⟩]
    ∧
    (∃ doc, (some [(⟨some "B16", some ⟨some 0, some "PT15M",
          [⟨some 1, some 100, none⟩, ⟨some 4, some 200, none⟩]⟩⟩ : XSeries)]) = some doc ∧
      ∃ s ∈ doc, ∃ per, s.period = some per ∧
        ∃ st, per.start = some st ∧ ∃ rtok, per.resolution = some rtok ∧
        ∃ res, resolutionMinutesGen rtok = .ok res ∧
        ∃ pt ∈ per.points, ∃ pos, pt.position = some pos ∧
          (45 : Int) = st + (pos - 1) * res) := by
  constructor
  · rfl
  · exact c1_timestamp_reconstruction.1 _
      [⟨0, "B16", 100⟩, ⟨45, "B16", 200⟩]
      ⟨45, "B16", 200⟩ (by rfl) (by decide)

/-- C2 claims every parser absorbs malformed documents and returns an empty
record sequence. The code contradicts this (and its own docstrings): only
`ET.parse` is inside the `try`, so a document that is well-formed XML but
lacks `timeInterval/start` inside a `Period` makes `parse_generation` raise
`AttributeError` from `period.find('e:timeInterval/e:start', ns).text`. -/
theorem c2_parser_raises_on_missing_start :
    parse_generation (some [⟨some "B16", some ⟨none, none, []⟩⟩]) =
      .error .attributeError := by rfl

/-- Counterexample to C6: the generation parser converts the resolution with
`int(resolution_str.strip('PTM'))`, so the hour token `PT1H` does not map to
60 there: the conversion (and hence the parser, on a document carrying that
token) raises `ValueError`. -/
theorem c6_hour_token_counterexample :
    resolutionMinutesGen "PT1H" = .error .valueError
    ∧
    parse_generation
        (some [⟨some "B16", some ⟨some 0, some "PT1H", [⟨some 1, some 1, none⟩]⟩⟩]) =
      .error .valueError := by
  exact ⟨rfl, rfl⟩

/-- C6 as amended: `PT15M ↦ 15` and `PT30M ↦ 30` under both minute-token
conversions; the prices parser alone recognises hour tokens, mapping
`PT1H ↦ 60` (hours times 60); the generation/load conversion raises on
`PT1H`, and the physical-notification conversion reduces `PT1H` to 1. -/
theorem c6_resolution_tokens :
    resolutionMinutesGen "PT15M" = .ok 15
    ∧ resolutionMinutesGen "PT30M" = .ok 30
    ∧ resolutionMinutesPrices "PT15M" = .ok 15
    ∧ resolutionMinutesPrices "PT30M" = .ok 30
    ∧ resolutionMinutesPrices "PT1H" = .ok 60
    ∧ resolutionMinutesPrices "PT60M" = .ok 60
    ∧ resolutionMinutesGen "PT1H" = .error .valueError
    ∧ resolutionMinutesPN "PT30M" = 30
    ∧ resolutionMinutesPN "PT1H" = 1 := by
  refine ⟨rfl, rfl, rfl, rfl, rfl, rfl, rfl, rfl, rfl⟩

/-- C10: both branches of the bid-offer parser reconstruct the timestamp as
settlement date plus `(period - 0.5) * 30` minutes, that is `30*p - 15`
minutes past the date, the midpoint `(p-1)*30 + 15` of the p-th 30-minute
settlement slot; the JSON branch defaults a missing period to 0, the XML
branch raises on a missing period, and the two branches compute identical
timestamps for identical fields. -/
theorem c10_bid_offer_midpoint :
    (∀ (items : List BOJItem) (r : BORecord), r ∈ boParseJson items →
      ∃ it ∈ items,
        r.ts = it.settlementDate.map
          (fun d => d + (30 * it.settlementPeriod.getD 0 - 15)))
    ∧
    (∀ (root : List BOXItem) (recs : List BORecord) (r : BORecord),
      parse_bid_offer_data (.xmlDoc root) = .ok recs → r ∈ recs →
      ∃ it ∈ root, ∃ sp, it.settlementPeriod = some sp ∧
        r.ts = it.settlementDate.map (fun d => d + (30 * sp - 15)))
    ∧
    (∀ (dt : Option Int) (sp : Int) (bm : Option String) (bp op bv ov : Option Rat),
      ∃ rs, boParseXml [⟨dt, some sp, bm, bp, op, bv, ov⟩] = .ok rs ∧
        rs.map BORecord.ts =
          (boParseJson [⟨dt, some sp, bm, bp, op, bv, ov⟩]).map BORecord.ts ∧
        rs.map BORecord.ts = [dt.map (fun d => d + ((sp - 1) * 30 + 15))]) := by
  refine ⟨?_, ?_, ?_⟩
  · intro items r hr
    simp only [boParseJson, List.mem_map] at hr
    obtain ⟨it, hit, hrec⟩ := hr
    exact ⟨it, hit, by rw [← hrec]⟩
  · intro root recs r h hr
    exact boParseXml_mem h hr
  · intro dt sp bm bp op bv ov
    refine ⟨_, rfl, by simp [boParseJson], ?_⟩
    have harith : (30 * sp - 15) = ((sp - 1) * 30 + 15) := by ring
    cases dt <;> simp [boParseXml, harith]

/-- Witness for C10: a JSON bid-offer item with date at minute 0 and
settlement period 3 yields the slot midpoint 75 minutes past the date. -/
theorem c10_bid_offer_midpoint_witness :
    ∃ it ∈ [(⟨some 0, some 3, none, none, none, none, none⟩ : BOJItem)],
      (some (75 : Int) : Option Int) = it.settlementDate.map
        (fun d => d + (30 * it.settlementPeriod.getD 0 - 15)) := by
  exact c10_bid_offer_midpoint.1
    [⟨some 0, some 3, none, none, none, none, none⟩]
    ⟨some 75, none, none, none, none, none⟩ (by decide)

/-- A report descriptor block from the Elexon source config
(`report_config` in the Python source). `dateParamType` is the open string
field `date_param_type` (absent encoded as `none`); `params` is the static
params dict. -/
structure ReportConfig where
  name : String
  code : Option String
  version : Option String
  dateParamType : Option String
  params : List (String × String)
  deriving DecidableEq, Repr

/-- Request parameters paired with the logical output path (`filename`). -/
abbrev ParamsEntry := List (String × String) × String

/-- Per-day emission of `_build_params_for_report` in `src/connectors/elexon.py`
(lines 199-239), for one `current_date`, given the dialect decision
`is_public = 'data.elexon.co.uk' in base_url`. -/
def elexonDayEmit (apiKey : String) (isPublic : Bool) (rc : ReportConfig)
    (dt : String) (d : Nat) : List ParamsEntry :=
  if dt = "from_to_date" then
    let ps :=
      if isPublic ∧ rc.code = some "B1620" then
        pset (pset rc.params "publishDateTimeFrom" (dateStr d ++ " 00:00"))
          "publishDateTimeTo" (dateStr d ++ " 23:59")
      else
        pset (pset rc.params "FromDate" (dateStr d)) "ToDate" (dateStr d)
    let ps :=
      if ¬ isPublic then pset (pset ps "APIKey" apiKey) "ServiceType" "xml"
      else pset ps "format" "json"
    [(ps, rc.name ++ "/" ++ dateStr d ++ ".xml")]
  else if dt = "settlement_date_period" then
    if isPublic ∧ rc.code = some "B1610" then
      let ps := pset (pset (pset (pset (pset rc.params
        "from" (dateStr d)) "to" (dateStr d))
        "settlementPeriodFrom" "1") "settlementPeriodTo" "48") "format" "json"
      [(ps, rc.name ++ "/" ++ dateStr d ++ ".json")]
    else
      (List.range' 1 48).map (fun p =>
        let ps := pset (pset (pset (pset rc.params
          "SettlementDate" (dateStr d)) "Period" (toString p))
          "APIKey" apiKey) "ServiceType" "xml"
        (ps, rc.name ++ "/" ++ dateStr d ++ "_P" ++ pad2 p ++ ".xml"))
  else []

/-- `_build_params_for_report` of `src/connectors/elexon.py` (lines 175-239):
the whole generator, materialized as the list of its emissions. -/
def elexonBuildParams (apiKey base : String) (rc : ReportConfig)
    (s e : Nat) : List ParamsEntry :=
  let isPublic := strContains base "data.elexon.co.uk"
  match rc.dateParamType with
  | none =>
    let fn := rc.name ++ "/" ++ rc.name ++ ".xml"
    let bp :=
      if ¬ isPublic then pset (pset rc.params "APIKey" apiKey) "ServiceType" "xml"
      else pset rc.params "format" "json"
    [(bp, fn)]
  | some dt => dayLoop (elexonDayEmit apiKey isPublic rc dt) s e

/-- `build_params_for_report` of
`src/connectors/elexon/parameter_builder.py` (lines 29-46): range-level
params for B1610/B1620, with overridable settlement-period bounds defaulting
to 1 and 36 (the Python default ints, rendered as the strings they serialize
to). -/
def elexonPBParamsForReport (rc : ReportConfig) (s e : Nat) :
    List (String × String) :=
  if rc.code = some "B1610" ∨ rc.code = some "B1620" then
    let ps := rc.params
    let ps := pset ps "from" (dateStr s)
    let ps := pset ps "to" (dateStr e)
    let ps := pset ps "settlementPeriodFrom" ((pget ps "settlementPeriodFrom").getD "1")
    let ps := pset ps "settlementPeriodTo" ((pget ps "settlementPeriodTo").getD "36")
    pset ps "format" "json"
  else rc.params

/-- `build_params_generator` of
`src/connectors/elexon/parameter_builder.py` (lines 48-76): B1610/B1620 get
a single whole-window emission; otherwise daily `FromDate`/`ToDate`
entries for `from_to_date`, else one static emission. -/
def elexonPBGenerator (rc : ReportConfig) (s e : Nat) : List ParamsEntry :=
  if rc.code = some "B1610" ∨ rc.code = some "B1620" then
    [(elexonPBParamsForReport rc s e,
      rc.name ++ "/" ++ dateStr s ++ "_to_" ++ dateStr e ++ ".json")]
  else if rc.dateParamType = some "from_to_date" then
    dayLoop (fun d =>
      [([("FromDate", dateStr d), ("ToDate", dateStr d)],
        rc.name ++ "/" ++ dateStr d ++ ".xml")]) s e
  else
    [(rc.params, rc.name ++ "/" ++ rc.name ++ ".json")]

/-- `_ElexonApiClient.__init__` of `src/connectors/elexon.py` (lines 19-31):
raises `ValueError` when the key is falsy and the base URL is not a public
`data.elexon.co.uk` URL; otherwise stores key and URL. -/
def elexonOldClientInit (apiKey base : String) :
    Except PyErr (String × String) :=
  if apiKey = "" ∧ ¬ strContains base "data.elexon.co.uk" then
    .error .valueError
  else
    .ok (apiKey, base)

/-- State of the refactored `ElexonApiClient`
(`src/connectors/elexon/api_client.py` lines 22-36). -/
structure ElexonApiClient where
  apiKey : String
  baseUrl : String
  isPublic : Bool
  deriving DecidableEq, Repr

/-- `ElexonApiClient.__init__` of `src/connectors/elexon/api_client.py`
(lines 22-36): never raises; records the key, the rstripped base URL and the
dialect flag. -/
def elexonNewClientInit (apiKey base : String) : Except PyErr ElexonApiClient :=
  .ok { apiKey := apiKey
        baseUrl := String.mk (pyRStrip ['/'] base.toList)
        isPublic := strContains base "data.elexon.co.uk" }

/-- `_prepare_params` of `src/connectors/elexon/api_client.py`
(lines 100-121): public dialect adds `format=json` when absent; legacy
dialect raises `ValueError` without a key, else adds `APIKey` and
`ServiceType`. -/
def prepareParams (c : ElexonApiClient) (ps : List (String × String)) :
    Except PyErr (List (String × String)) :=
  if c.isPublic then
    .ok (if (pget ps "format").isNone then pset ps "format" "json" else ps)
  else if c.apiKey = "" then
    .error .valueError
  else
    .ok (pset (pset ps "APIKey" c.apiKey) "ServiceType" "xml")

/-- A value in the YAML-derived connector config: a string leaf or a nested
dict (the only shapes the embedded code paths traverse). -/
inductive Cfg where
  | str (s : String)
  | dict (entries : List (String × Cfg))

/-- Python truthiness of a config value (`if resolved_value:`): empty string
and empty dict are falsy. -/
def Cfg.truthy : Cfg → Bool
  | .str s => s ≠ ""
  | .dict es => ¬ es.isEmpty

/-- Walk of `value = value[key]` through the config tree
(`_resolve_placeholder` loop): `none` models the `KeyError` of a missing
dict key or the `TypeError` of indexing a string leaf. -/
def cfgWalk : Cfg → List String → Option Cfg
  | c, [] => some c
  | .dict es, k :: ks =>
    match pget es k with
    | some v => cfgWalk v ks
    | none => none
  | .str _, _ :: _ => none

/-- Placeholder unwrapping of the refactored connector
(`src/connectors/entsoe/connector.py` lines 90-93): strip `${`...`}` only
when both delimiters are present, via `placeholder[2:-1]`. -/
def stripDollarBraces (s : String) : String :=
  let cs := s.toList
  if cs.take 2 = ['$', '{'] ∧ cs.getLast? = some '}' then
    String.mk ((cs.drop 2).dropLast)
  else s

/-- Python's `str.split('.')`: cut at every dot, keeping empty pieces
(`"".split('.') == [""]`). -/
def pySplitDot (s : String) : List String :=
  let rec go : List Char → List Char → List String
    | [], acc => [String.mk acc.reverse]
    | c :: cs, acc =>
      if c = '.' then String.mk acc.reverse :: go cs []
      else go cs (c :: acc)
  go s.toList []

/-- `_resolve_placeholder` of `src/connectors/entsoe/connector.py`
(lines 85-104): split the cleaned token on dots, walk the config, return the
resolved value or the empty string when the walk raises (caught and
logged). -/
def resolvePlaceholder (config : Cfg) (ph : String) : Cfg :=
  (cfgWalk config (pySplitDot (stripDollarBraces ph))).getD (.str "")

/-- `_resolve_placeholder` of the legacy `src/connectors/entsoe.py`
(lines 121-138): same walk, but the token is cleaned with
`placeholder.strip("${}")` (character strip from both ends). -/
def resolvePlaceholderOld (config : Cfg) (ph : String) : Cfg :=
  (cfgWalk config (pySplitDot (pyStrip "${}" ph))).getD (.str "")

/-- The `isinstance(placeholder, str)` guard of the refactored
`_resolve_placeholder`: non-string placeholders resolve to `""`. -/
def resolvePlaceholderVal (config : Cfg) : Cfg → Cfg
  | .str s => resolvePlaceholder config s
  | .dict _ => .str ""

/-- A query descriptor block of the ENTSO-E source config. -/
structure QueryConfig where
  name : String
  documentType : Option String
  params : List (String × Cfg)
  domainParams : List (String × Cfg)

/-- `build_params_for_day` of `src/connectors/entsoe/parameter_builder.py`
(lines 13-31): static params, optional `documentType`, `periodStart` and
`periodEnd` for the day, then the domain params set verbatim (resolution is
the caller's job). -/
def entsoeBuildParamsForDay (qc : QueryConfig) (d : Nat) : List (String × Cfg) :=
  let ps := qc.params
  let ps :=
    match qc.documentType with
    | some dtv => pset ps "documentType" (.str dtv)
    | none => ps
  let ps := pset ps "periodStart" (.str (entsoeDT d))
  let ps := pset ps "periodEnd" (.str (entsoeDT (d + 1)))
  qc.domainParams.foldl (fun acc kv => pset acc kv.1 kv.2) ps

/-- `build_params_generator` of `src/connectors/entsoe/parameter_builder.py`
(lines 33-38): one `build_params_for_day` emission per day of the window. -/
def entsoeGenerator (qc : QueryConfig) (s e : Nat) : List (List (String × Cfg)) :=
  dayLoop (fun d => [entsoeBuildParamsForDay qc d]) s e

/-- Domain-placeholder resolution step of `extract` in
`src/connectors/entsoe/connector.py` (lines 56-63): resolve every domain
param, and replace the descriptor's `domain_params` when the resolved dict is
non-empty. -/
def entsoeResolveQuery (config : Cfg) (qc : QueryConfig) : QueryConfig :=
  let rd := qc.domainParams.map (fun kv => (kv.1, resolvePlaceholderVal config kv.2))
  if rd.isEmpty then qc else { qc with domainParams := rd }

/-- Composition used per day by `extract` of the refactored connector:
resolve placeholders, then build the day's params. -/
def entsoeExtractParamsForDay (config : Cfg) (qc : QueryConfig) (d : Nat) :
    List (String × Cfg) :=
  entsoeBuildParamsForDay (entsoeResolveQuery config qc) d

/-- `_build_params_for_day` of the legacy `src/connectors/entsoe.py`
(lines 140-164): `query_config['documentType']` raises `KeyError` when
absent; each domain param is resolved and added only when the resolved value
is truthy. -/
def entsoeOldBuildParamsForDay (config : Cfg) (qc : QueryConfig) (d : Nat) :
    Except PyErr (List (String × Cfg)) :=
  match qc.documentType with
  | none => .error .keyError
  | some dtv =>
    let ps := pset qc.params "documentType" (.str dtv)
    let ps := pset ps "periodStart" (.str (entsoeDT d))
    let ps := pset ps "periodEnd" (.str (entsoeDT (d + 1)))
    .ok (qc.domainParams.foldl (fun acc kv =>
      match kv.2 with
      | .str phs =>
        let rv := resolvePlaceholderOld config phs
        if rv.truthy then pset acc kv.1 rv else acc
      | .dict _ => acc) ps)

theorem flatMap_singleton_eq_map {α β : Type} (g : α → β) :
    ∀ xs : List α, (xs.flatMap fun a => [g a]) = xs.map g := by
  intro xs
  induction xs with
  | nil => rfl
  | cons x xs ih => simp [List.flatMap_cons, ih]


/-- C5: with `dateParamType = FromToDate` both per-day builders emit exactly
`(end - start) + 1` entries, one per calendar day of the inclusive window, in
ascending date order: entry `i` is the emission for day `start + i` (its
logical path carries that day for Elexon; the ENTSO-E entry is the day's
parameter build). -/
theorem c5_from_to_date_daily :
    (∀ (apiKey base : String) (rc : ReportConfig) (s e : Nat),
      s ≤ e → rc.dateParamType = some "from_to_date" →
      (elexonBuildParams apiKey base rc s e).length = e + 1 - s ∧
      ∀ (i : Nat) (hi : i < (elexonBuildParams apiKey base rc s e).length),
        ((elexonBuildParams apiKey base rc s e)[i]).2 =
          rc.name ++ "/" ++ dateStr (s + i) ++ ".xml")
    ∧
    (∀ (qc : QueryConfig) (s e : Nat),
      s ≤ e →
      (entsoeGenerator qc s e).length = e + 1 - s ∧
      ∀ (i : Nat) (hi : i < (entsoeGenerator qc s e).length),
        (entsoeGenerator qc s e)[i] = entsoeBuildParamsForDay qc (s + i)) := by
  constructor
  · intro apiKey base rc s e _hse hdt
    have hout : elexonBuildParams apiKey base rc s e =
        (daysList s e).flatMap
          (elexonDayEmit apiKey (strContains base "data.elexon.co.uk") rc
            "from_to_date") := by
      unfold elexonBuildParams
      rw [hdt]
      exact dayLoop_eq_flatMap _ s e
    have hblock : ∀ d, (elexonDayEmit apiKey
        (strContains base "data.elexon.co.uk") rc "from_to_date" d).length = 1 := by
      intro d
      simp [elexonDayEmit]
    have hlen : (elexonBuildParams apiKey base rc s e).length = e + 1 - s := by
      rw [hout, flatMap_blocks_length _ 1 hblock, daysList_length, Nat.mul_one]
    refine ⟨hlen, ?_⟩
    intro i hi
    have hi' : i < ((daysList s e).flatMap
        (elexonDayEmit apiKey (strContains base "data.elexon.co.uk") rc
          "from_to_date")).length := by
      rw [← hout]; exact hi
    have hd : i / 1 < (daysList s e).length := by
      rw [Nat.div_one, daysList_length]
      rw [hlen] at hi
      exact hi
    have hm : i % 1 < (elexonDayEmit apiKey
        (strContains base "data.elexon.co.uk") rc "from_to_date"
        ((daysList s e)[i / 1])).length := by
      rw [hblock]
      exact Nat.mod_lt _ Nat.one_pos
    have := flatMap_blocks_getElem _ 1 Nat.one_pos hblock (daysList s e) i hi' hd hm
    have hday : (daysList s e)[i / 1] = s + i := by
      rw [daysList_getElem]
      rw [Nat.div_one]
    simp only [hout]
    rw [this]
    simp only [hday, Nat.mod_one]
    simp [elexonDayEmit]
  · intro qc s e _hse
    have hout : entsoeGenerator qc s e =
        (daysList s e).flatMap (fun d => [entsoeBuildParamsForDay qc d]) := by
      unfold entsoeGenerator
      exact dayLoop_eq_flatMap _ s e
    have hmap : entsoeGenerator qc s e =
        (daysList s e).map (entsoeBuildParamsForDay qc) := by
      rw [hout, flatMap_singleton_eq_map]
    have hlen : (entsoeGenerator qc s e).length = e + 1 - s := by
      rw [hmap, List.length_map, daysList_length]
    refine ⟨hlen, ?_⟩
    intro i hi
    have hi2 : i < (daysList s e).length := by
      rw [daysList_length]
      rw [hlen] at hi
      exact hi
    have hb : i < ((daysList s e).map (entsoeBuildParamsForDay qc)).length := by
      rw [List.length_map]; exact hi2
    have heq : (entsoeGenerator qc s e)[i] =
        ((daysList s e).map (entsoeBuildParamsForDay qc))[i] := by
      congr 1
    rw [heq, List.getElem_map, daysList_getElem]

/-- Witness for C5: a three-day window `[5, 7]` yields three Elexon
`from_to_date` emissions whose second path carries day 6, and three ENTSO-E
emissions whose second entry is the build for day 6. -/
theorem c5_from_to_date_daily_witness :
    ((elexonBuildParams "key" "https://api.bmreports.com/BMRS"
        ⟨"rep", some "B1330", some "v1", some "from_to_date", []⟩ 5 7).length = 3
      ∧ (((elexonBuildParams "key" "https://api.bmreports.com/BMRS"
        ⟨"rep", some "B1330", some "v1", some "from_to_date", []⟩ 5 7).get
          ⟨1, by decide⟩).2 = "rep" ++ "/" ++ dateStr 6 ++ ".xml"))
    ∧ ((entsoeGenerator ⟨"gen", some "A75", [], []⟩ 5 7).length = 3
      ∧ (entsoeGenerator ⟨"gen", some "A75", [], []⟩ 5 7).get ⟨1, by decide⟩ =
          entsoeBuildParamsForDay ⟨"gen", some "A75", [], []⟩ 6) := by
  constructor
  · exact ⟨(c5_from_to_date_daily.1 "key" "https://api.bmreports.com/BMRS"
      ⟨"rep", some "B1330", some "v1", some "from_to_date", []⟩ 5 7
      (by decide) rfl).1,
    (c5_from_to_date_daily.1 "key" "https://api.bmreports.com/BMRS"
      ⟨"rep", some "B1330", some "v1", some "from_to_date", []⟩ 5 7
      (by decide) rfl).2 1 (by decide)⟩
  · exact ⟨(c5_from_to_date_daily.2 ⟨"gen", some "A75", [], []⟩ 5 7 (by decide)).1,
    (c5_from_to_date_daily.2 ⟨"gen", some "A75", [], []⟩ 5 7 (by decide)).2 1 (by decide)⟩

/-- C4: under the legacy dialect with `dateParamType = SettlementDatePeriod`
the builder emits exactly `48 × (days in window)` entries; entry `i` belongs
to day `start + i/48` and settlement period `i%48 + 1`, so dates are
non-decreasing and periods ascend `1..48` within each day with no gaps or
repeats; the `Period` request parameter is the unpadded decimal string while
the logical path ends in the zero-padded `_P01".."_P48` suffix. -/
theorem c4_legacy_settlement_periods :
    ∀ (apiKey base : String) (rc : ReportConfig) (s e : Nat),
      s ≤ e →
      strContains base "data.elexon.co.uk" = false →
      rc.dateParamType = some "settlement_date_period" →
      (elexonBuildParams apiKey base rc s e).length = 48 * (e + 1 - s) ∧
      ∀ (i : Nat) (hi : i < (elexonBuildParams apiKey base rc s e).length),
        pget ((elexonBuildParams apiKey base rc s e)[i]).1 "Period" =
          some (toString (i % 48 + 1)) ∧
        pget ((elexonBuildParams apiKey base rc s e)[i]).1 "SettlementDate" =
          some (dateStr (s + i / 48)) ∧
        ((elexonBuildParams apiKey base rc s e)[i]).2 =
          rc.name ++ "/" ++ dateStr (s + i / 48) ++ "_P" ++
            pad2 (i % 48 + 1) ++ ".xml" := by
  intro apiKey base rc s e _hse hpub hdt
  have hout : elexonBuildParams apiKey base rc s e =
      (daysList s e).flatMap
        (elexonDayEmit apiKey (strContains base "data.elexon.co.uk") rc
          "settlement_date_period") := by
    unfold elexonBuildParams
    rw [hdt]
    exact dayLoop_eq_flatMap _ s e
  have hemit : ∀ d, elexonDayEmit apiKey (strContains base "data.elexon.co.uk")
      rc "settlement_date_period" d =
      (List.range' 1 48).map (fun p =>
        (pset (pset (pset (pset rc.params "SettlementDate" (dateStr d))
          "Period" (toString p)) "APIKey" apiKey) "ServiceType" "xml",
         rc.name ++ "/" ++ dateStr d ++ "_P" ++ pad2 p ++ ".xml")) := by
    intro d
    simp [elexonDayEmit, hpub]
  have hblock : ∀ d, (elexonDayEmit apiKey
      (strContains base "data.elexon.co.uk") rc
      "settlement_date_period" d).length = 48 := by
    intro d
    rw [hemit d]
    simp
  have hlen : (elexonBuildParams apiKey base rc s e).length = 48 * (e + 1 - s) := by
    rw [hout, flatMap_blocks_length _ 48 hblock, daysList_length, Nat.mul_comm]
  refine ⟨hlen, ?_⟩
  intro i hi
  have hi' : i < ((daysList s e).flatMap
      (elexonDayEmit apiKey (strContains base "data.elexon.co.uk") rc
        "settlement_date_period")).length := by
    rw [← hout]; exact hi
  have hd : i / 48 < (daysList s e).length := by
    rw [daysList_length]
    rw [hlen] at hi
    omega
  have hm : i % 48 < (elexonDayEmit apiKey
      (strContains base "data.elexon.co.uk") rc "settlement_date_period"
      ((daysList s e)[i / 48])).length := by
    rw [hblock]
    omega
  have hgot := flatMap_blocks_getElem _ 48 (by omega) hblock (daysList s e) i hi' hd hm
  have hday : (daysList s e)[i / 48] = s + i / 48 := daysList_getElem s e _ hd
  simp only [hout]
  rw [hgot]
  simp only [hday]
  have hm2 : i % 48 < ((List.range' 1 48).map (fun p =>
      (pset (pset (pset (pset rc.params "SettlementDate" (dateStr (s + i / 48)))
        "Period" (toString p)) "APIKey" apiKey) "ServiceType" "xml",
       rc.name ++ "/" ++ dateStr (s + i / 48) ++ "_P" ++ pad2 p ++ ".xml"))).length := by
    simp
    omega
  simp only [hemit]
  rw [List.getElem_map]
  have hb48 : i % 48 < (List.range' 1 48).length := by
    simp
    omega
  have hrange : (List.range' 1 48)[i % 48] = 1 + i % 48 := by
    rw [List.getElem_range']
    omega
  simp only [hrange]
  have hcomm : 1 + i % 48 = i % 48 + 1 := Nat.add_comm 1 _
  refine ⟨?_, ?_, ?_⟩
  · rw [pget_pset_ne _ _ _ _ (by decide), pget_pset_ne _ _ _ _ (by decide),
        pget_pset_self, hcomm]
  · rw [pget_pset_ne _ _ _ _ (by decide), pget_pset_ne _ _ _ _ (by decide),
        pget_pset_ne _ _ _ _ (by decide), pget_pset_self]
  · rw [hcomm]

/-- Witness for C4: a two-day legacy window gives 96 emissions; emission 49
is day 1, period 2, with unpadded request parameter `"2"` and padded path
suffix `_P02`. -/
theorem c4_legacy_settlement_periods_witness :
    (elexonBuildParams "k" "https://api.bmreports.com/BMRS"
      ⟨"pn", some "B0710", some "v1", some "settlement_date_period", []⟩ 0 1).length = 96
    ∧ pget ((elexonBuildParams "k" "https://api.bmreports.com/BMRS"
        ⟨"pn", some "B0710", some "v1", some "settlement_date_period", []⟩ 0 1).get
          ⟨49, by decide⟩).1 "Period" = some "2"
    ∧ pget ((elexonBuildParams "k" "https://api.bmreports.com/BMRS"
        ⟨"pn", some "B0710", some "v1", some "settlement_date_period", []⟩ 0 1).get
          ⟨49, by decide⟩).1 "SettlementDate" = some "1"
    ∧ ((elexonBuildParams "k" "https://api.bmreports.com/BMRS"
        ⟨"pn", some "B0710", some "v1", some "settlement_date_period", []⟩ 0 1).get
          ⟨49, by decide⟩).2 = "pn/1_P02.xml" := by
  have h := c4_legacy_settlement_periods "k" "https://api.bmreports.com/BMRS"
    ⟨"pn", some "B0710", some "v1", some "settlement_date_period", []⟩ 0 1
    (by decide) (by decide) rfl
  exact ⟨h.1, (h.2 49 (by decide)).1, (h.2 49 (by decide)).2.1, (h.2 49 (by decide)).2.2⟩

/-- Counterexample to C3: for a two-day window the range builder of
`elexon/parameter_builder.py` emits a single whole-window entry, not one per
day; and in the per-day builder of `elexon.py` a static
`settlementPeriodFrom` of `"7"` is overwritten by the hard-coded `'1'`, so
the descriptor cannot override the bounds there. -/
theorem c3_public_sdp_counterexample :
    (elexonPBGenerator
      ⟨"demand", some "B1610", some "v1", some "settlement_date_period",
        [("settlementPeriodFrom", "7")]⟩ 0 1).length = 1
    ∧ ((elexonBuildParams "" "https://data.elexon.co.uk/bmrs/api/v1"
        ⟨"demand", some "B1610", some "v1", some "settlement_date_period",
          [("settlementPeriodFrom", "7")]⟩ 0 0).map
        (fun en => pget en.1 "settlementPeriodFrom")) = [some "1"] := by
  exact ⟨rfl, rfl⟩

/-- C3 as amended: under the public dialect with
`dateParamType = SettlementDatePeriod`, the per-day generator in `elexon.py`
emits one entry per calendar day, each carrying the fixed bounds
`settlementPeriodFrom='1'` and `settlementPeriodTo='48'` which static params
cannot override, while the range builder in `elexon/parameter_builder.py`
emits exactly one entry for the whole window, carrying both bounds with
defaults 1 and 36 that the descriptor's static params may override. -/
theorem c3_public_sdp_builders :
    (∀ (apiKey base : String) (rc : ReportConfig) (s e : Nat),
      s ≤ e →
      strContains base "data.elexon.co.uk" = true →
      rc.code = some "B1610" →
      rc.dateParamType = some "settlement_date_period" →
      (elexonBuildParams apiKey base rc s e).length = e + 1 - s ∧
      ∀ (i : Nat) (hi : i < (elexonBuildParams apiKey base rc s e).length),
        pget ((elexonBuildParams apiKey base rc s e)[i]).1
          "settlementPeriodFrom" = some "1" ∧
        pget ((elexonBuildParams apiKey base rc s e)[i]).1
          "settlementPeriodTo" = some "48" ∧
        pget ((elexonBuildParams apiKey base rc s e)[i]).1
          "from" = some (dateStr (s + i)) ∧
        pget ((elexonBuildParams apiKey base rc s e)[i]).1
          "to" = some (dateStr (s + i)) ∧
        ((elexonBuildParams apiKey base rc s e)[i]).2 =
          rc.name ++ "/" ++ dateStr (s + i) ++ ".json")
    ∧
    (∀ (rc : ReportConfig) (s e : Nat),
      rc.code = some "B1610" ∨ rc.code = some "B1620" →
      elexonPBGenerator rc s e =
        [(elexonPBParamsForReport rc s e,
          rc.name ++ "/" ++ dateStr s ++ "_to_" ++ dateStr e ++ ".json")] ∧
      pget (elexonPBParamsForReport rc s e) "settlementPeriodFrom" =
        some ((pget rc.params "settlementPeriodFrom").getD "1") ∧
      pget (elexonPBParamsForReport rc s e) "settlementPeriodTo" =
        some ((pget rc.params "settlementPeriodTo").getD "36") ∧
      pget (elexonPBParamsForReport rc s e) "format" = some "json" ∧
      pget (elexonPBParamsForReport rc s e) "from" = some (dateStr s) ∧
      pget (elexonPBParamsForReport rc s e) "to" = some (dateStr e)) := by
  constructor
  · intro apiKey base rc s e _hse hpub hcode hdt
    have hout : elexonBuildParams apiKey base rc s e =
        (daysList s e).flatMap
          (elexonDayEmit apiKey (strContains base "data.elexon.co.uk") rc
            "settlement_date_period") := by
      unfold elexonBuildParams
      rw [hdt]
      exact dayLoop_eq_flatMap _ s e
    have hemit : ∀ d, elexonDayEmit apiKey
        (strContains base "data.elexon.co.uk") rc "settlement_date_period" d =
        [(pset (pset (pset (pset (pset rc.params "from" (dateStr d))
            "to" (dateStr d)) "settlementPeriodFrom" "1")
            "settlementPeriodTo" "48") "format" "json",
          rc.name ++ "/" ++ dateStr d ++ ".json")] := by
      intro d
      simp [elexonDayEmit, hpub, hcode]
    have hblock : ∀ d, (elexonDayEmit apiKey
        (strContains base "data.elexon.co.uk") rc
        "settlement_date_period" d).length = 1 := by
      intro d
      rw [hemit d]
      rfl
    have hlen : (elexonBuildParams apiKey base rc s e).length = e + 1 - s := by
      rw [hout, flatMap_blocks_length _ 1 hblock, daysList_length, Nat.mul_one]
    refine ⟨hlen, ?_⟩
    intro i hi
    have hi' : i < ((daysList s e).flatMap
        (elexonDayEmit apiKey (strContains base "data.elexon.co.uk") rc
          "settlement_date_period")).length := by
      rw [← hout]; exact hi
    have hd : i / 1 < (daysList s e).length := by
      rw [Nat.div_one, daysList_length]
      rw [hlen] at hi
      exact hi
    have hm : i % 1 < (elexonDayEmit apiKey
        (strContains base "data.elexon.co.uk") rc "settlement_date_period"
        ((daysList s e)[i / 1])).length := by
      rw [hblock]
      exact Nat.mod_lt _ Nat.one_pos
    have hgot := flatMap_blocks_getElem _ 1 Nat.one_pos hblock (daysList s e) i hi' hd hm
    have hday : (daysList s e)[i / 1] = s + i := by
      rw [daysList_getElem, Nat.div_one]
    simp only [hout]
    rw [hgot]
    simp only [hday, Nat.mod_one, hemit, List.getElem_cons_zero]
    refine ⟨?_, ?_, ?_, ?_, trivial⟩
    · rw [pget_pset_ne _ _ _ _ (by decide), pget_pset_ne _ _ _ _ (by decide),
          pget_pset_self]
    · rw [pget_pset_ne _ _ _ _ (by decide), pget_pset_self]
    · rw [pget_pset_ne _ _ _ _ (by decide), pget_pset_ne _ _ _ _ (by decide),
          pget_pset_ne _ _ _ _ (by decide), pget_pset_ne _ _ _ _ (by decide),
          pget_pset_self]
    · rw [pget_pset_ne _ _ _ _ (by decide), pget_pset_ne _ _ _ _ (by decide),
          pget_pset_ne _ _ _ _ (by decide), pget_pset_self]
  · intro rc s e hcode
    have hgen : elexonPBGenerator rc s e =
        [(elexonPBParamsForReport rc s e,
          rc.name ++ "/" ++ dateStr s ++ "_to_" ++ dateStr e ++ ".json")] := by
      unfold elexonPBGenerator
      rw [if_pos hcode]
    have hps : elexonPBParamsForReport rc s e =
        pset (pset (pset (pset (pset rc.params "from" (dateStr s))
          "to" (dateStr e))
          "settlementPeriodFrom"
          ((pget (pset (pset rc.params "from" (dateStr s)) "to" (dateStr e))
            "settlementPeriodFrom").getD "1"))
          "settlementPeriodTo"
          ((pget (pset (pset (pset rc.params "from" (dateStr s)) "to" (dateStr e))
              "settlementPeriodFrom"
              ((pget (pset (pset rc.params "from" (dateStr s)) "to" (dateStr e))
                "settlementPeriodFrom").getD "1"))
            "settlementPeriodTo").getD "36"))
          "format" "json" := by
      unfold elexonPBParamsForReport
      rw [if_pos hcode]
    have hsf2 : pget (pset (pset rc.params "from" (dateStr s)) "to" (dateStr e))
        "settlementPeriodFrom" = pget rc.params "settlementPeriodFrom" := by
      rw [pget_pset_ne _ _ _ _ (by decide), pget_pset_ne _ _ _ _ (by decide)]
    have hst3 : pget (pset (pset (pset rc.params "from" (dateStr s))
          "to" (dateStr e)) "settlementPeriodFrom"
          ((pget (pset (pset rc.params "from" (dateStr s)) "to" (dateStr e))
            "settlementPeriodFrom").getD "1"))
        "settlementPeriodTo" = pget rc.params "settlementPeriodTo" := by
      rw [pget_pset_ne _ _ _ _ (by decide), pget_pset_ne _ _ _ _ (by decide),
          pget_pset_ne _ _ _ _ (by decide)]
    refine ⟨hgen, ?_, ?_, ?_, ?_, ?_⟩
    · rw [hps, pget_pset_ne _ _ _ _ (by decide), pget_pset_ne _ _ _ _ (by decide),
          pget_pset_self, hsf2]
    · rw [hps, pget_pset_ne _ _ _ _ (by decide), pget_pset_self, hst3]
    · rw [hps, pget_pset_self]
    · rw [hps, pget_pset_ne _ _ _ _ (by decide), pget_pset_ne _ _ _ _ (by decide),
          pget_pset_ne _ _ _ _ (by decide), pget_pset_ne _ _ _ _ (by decide),
          pget_pset_self]
    · rw [hps, pget_pset_ne _ _ _ _ (by decide), pget_pset_ne _ _ _ _ (by decide),
          pget_pset_ne _ _ _ _ (by decide), pget_pset_self]

/-- Witness for C3 as amended: a two-day window yields two per-day emissions
from `elexon.py`, and the range builder honours a static
`settlementPeriodFrom` of `"5"`. -/
theorem c3_public_sdp_builders_witness :
    (elexonBuildParams "" "https://data.elexon.co.uk/bmrs/api/v1"
      ⟨"demand", some "B1610", some "v1", some "settlement_date_period", []⟩ 0 1).length = 2
    ∧ pget (elexonPBParamsForReport
        ⟨"demand", some "B1610", some "v1", some "settlement_date_period",
          [("settlementPeriodFrom", "5")]⟩ 0 1) "settlementPeriodFrom" = some "5" := by
  exact ⟨(c3_public_sdp_builders.1 "" "https://data.elexon.co.uk/bmrs/api/v1"
      ⟨"demand", some "B1610", some "v1", some "settlement_date_period", []⟩ 0 1
      (by decide) (by decide) rfl rfl).1,
    (c3_public_sdp_builders.2
      ⟨"demand", some "B1610", some "v1", some "settlement_date_period",
        [("settlementPeriodFrom", "5")]⟩ 0 1 (Or.inl rfl)).2.1⟩

/-- Counterexample to C7: the refactored `ElexonApiClient` constructs
successfully with an empty credential on a legacy base URL — the
configuration error is raised only later, by `_prepare_params` on each
request. -/
theorem c7_fail_fast_counterexample :
    elexonNewClientInit "" "https://api.bmreports.com/BMRS" =
      .ok ⟨"", "https://api.bmreports.com/BMRS", false⟩
    ∧ prepareParams ⟨"", "https://api.bmreports.com/BMRS", false⟩ [] =
      .error .valueError := by
  exact ⟨rfl, rfl⟩

/-- C7 as amended: the legacy-file client (`elexon.py`) raises the
configuration error at construction exactly when the credential is empty and
the base URL is not public, and accepts an empty credential on the public
dialect; the refactored client (`elexon/api_client.py`) always constructs
and instead raises `ValueError` in `_prepare_params` on every legacy-dialect
request made without a credential, while public-dialect requests succeed. -/
theorem c7_credential_check_location :
    (∀ (apiKey base : String),
      (elexonOldClientInit apiKey base = .error .valueError ↔
        (apiKey = "" ∧ strContains base "data.elexon.co.uk" = false)))
    ∧
    (∀ (apiKey base : String), ∃ c, elexonNewClientInit apiKey base = .ok c)
    ∧
    (∀ (ps : List (String × String)) (c : ElexonApiClient),
      c.isPublic = false → c.apiKey = "" →
      prepareParams c ps = .error .valueError)
    ∧
    (∀ (ps : List (String × String)) (c : ElexonApiClient),
      c.isPublic = true → ∃ out, prepareParams c ps = .ok out) := by
  refine ⟨?_, ?_, ?_, ?_⟩
  · intro apiKey base
    unfold elexonOldClientInit
    constructor
    · intro h
      by_contra hc
      rw [if_neg ?_] at h
      · exact absurd h (by simp)
      · intro hcond
        rcases hcond with ⟨h1, h2⟩
        exact hc ⟨h1, by simpa using h2⟩
    · intro ⟨h1, h2⟩
      rw [if_pos ⟨h1, by simp [h2]⟩]
  · intro apiKey base
    exact ⟨_, rfl⟩
  · intro ps c hpub hkey
    unfold prepareParams
    rw [if_neg (by simp [hpub]), if_pos hkey]
  · intro ps c hpub
    unfold prepareParams
    rw [if_pos (by simp [hpub])]
    exact ⟨_, rfl⟩

/-- Witness for C7 as amended: the legacy-file client rejects the empty
credential at construction for a BMRS URL and accepts it for a public URL;
the refactored client's error surfaces in `_prepare_params` instead. -/
theorem c7_credential_check_location_witness :
    elexonOldClientInit "" "https://api.bmreports.com/BMRS" = .error .valueError
    ∧ (∃ c, elexonNewClientInit "" "https://api.bmreports.com/BMRS" = .ok c)
    ∧ prepareParams ⟨"", "u", false⟩ [] = .error .valueError
    ∧ (∃ out, prepareParams ⟨"", "u", true⟩ [] = .ok out) := by
  exact ⟨(c7_credential_check_location.1 "" "https://api.bmreports.com/BMRS").mpr
      ⟨rfl, by decide⟩,
    c7_credential_check_location.2.1 "" "https://api.bmreports.com/BMRS",
    c7_credential_check_location.2.2.1 [] ⟨"", "u", false⟩ rfl rfl,
    c7_credential_check_location.2.2.2 [] ⟨"", "u", true⟩ rfl⟩

/-- Counterexample to C8: in the refactored connector a domain parameter
whose placeholder fails to resolve is not omitted — it is carried into the
request parameters as the empty string. -/
theorem c8_empty_placeholder_counterexample :
    resolvePlaceholder (.dict [("zone", .str "10YGB")]) "${missing.path}" = .str ""
    ∧ pget (entsoeExtractParamsForDay (.dict [("zone", .str "10YGB")])
        ⟨"gen", some "A75", [], [("in_Domain", .str "${missing.path}")]⟩ 0)
        "in_Domain" = some (.str "") := by
  exact ⟨rfl, rfl⟩

/-- C8 as amended: placeholder resolution walks the dotted key path through
the source's own config tree and substitutes the resolved value, and a
missing segment resolves to the empty string without raising; a domain
parameter that resolved to a falsy value is omitted by the legacy
`entsoe.py` builder, but the refactored connector passes the empty string
through into the request parameters. -/
theorem c8_placeholder_resolution :
    (∀ (config : Cfg) (ph : String) (v : Cfg),
      cfgWalk config (pySplitDot (stripDollarBraces ph)) = some v →
      resolvePlaceholder config ph = v)
    ∧
    (∀ (config : Cfg) (ph : String),
      cfgWalk config (pySplitDot (stripDollarBraces ph)) = none →
      resolvePlaceholder config ph = .str "")
    ∧
    (∀ (config : Cfg) (qc : QueryConfig) (d : Nat) (dtv : String)
        (n phs : String),
      qc.documentType = some dtv →
      qc.domainParams = [(n, .str phs)] →
      (resolvePlaceholderOld config phs).truthy = false →
      entsoeOldBuildParamsForDay config qc d =
        .ok (pset (pset (pset qc.params "documentType" (.str dtv))
          "periodStart" (.str (entsoeDT d)))
          "periodEnd" (.str (entsoeDT (d + 1)))))
    ∧
    (∀ (config : Cfg) (qc : QueryConfig) (d : Nat) (n phs : String),
      qc.domainParams = [(n, .str phs)] →
      cfgWalk config (pySplitDot (stripDollarBraces phs)) = none →
      pget (entsoeExtractParamsForDay config qc d) n = some (.str "")) := by
  refine ⟨?_, ?_, ?_, ?_⟩
  · intro config ph v h
    unfold resolvePlaceholder
    rw [h]
    rfl
  · intro config ph h
    unfold resolvePlaceholder
    rw [h]
    rfl
  · intro config qc d dtv n phs hdt hdp hfal
    unfold entsoeOldBuildParamsForDay
    rw [hdt]
    simp only [hdp, List.foldl_cons, List.foldl_nil, hfal]
    rw [if_neg (by simp [hfal])]
  · intro config qc d n phs hdp hwalk
    have hres : resolvePlaceholderVal config (.str phs) = .str "" := by
      simp only [resolvePlaceholderVal]
      unfold resolvePlaceholder
      rw [hwalk]
      rfl
    unfold entsoeExtractParamsForDay entsoeResolveQuery
    simp only [hdp, List.map_cons, List.map_nil, hres, List.isEmpty_cons,
      Bool.false_eq_true, if_false]
    unfold entsoeBuildParamsForDay
    simp only [List.foldl_cons, List.foldl_nil]
    exact pget_pset_self _ _ _

/-- Witness for C8 as amended: a concrete nested lookup resolves through the
dotted path; a missing path resolves to the empty string; and the legacy
builder omits the unresolved domain parameter. -/
theorem c8_placeholder_resolution_witness :
    resolvePlaceholder (.dict [("interconnectors", .dict [("FR", .str "10YFR")])])
      "${interconnectors.FR}" = .str "10YFR"
    ∧ resolvePlaceholder (.dict []) "${a.b}" = .str ""
    ∧ entsoeOldBuildParamsForDay (.dict []) ⟨"gen", some "A75", [],
        [("in_Domain", .str "${a.b}")]⟩ 3 =
      .ok (pset (pset (pset [] "documentType" (.str "A75"))
        "periodStart" (.str (entsoeDT 3))) "periodEnd" (.str (entsoeDT 4))) := by
  exact ⟨c8_placeholder_resolution.1
      (.dict [("interconnectors", .dict [("FR", .str "10YFR")])])
      "${interconnectors.FR}" (.str "10YFR") rfl,
    c8_placeholder_resolution.2.1 (.dict []) "${a.b}" rfl,
    c8_placeholder_resolution.2.2.1 (.dict [])
      ⟨"gen", some "A75", [], [("in_Domain", .str "${a.b}")]⟩ 3 "A75"
      "in_Domain" "${a.b}" rfl rfl rfl⟩

/-- A heap of Python dicts: callers hold references (indices) into it, so
aliasing and in-place mutation of `dict`s are observable. -/
abbrev PStore (α : Type) := List (List (String × α))

/-- Read the dict behind a reference. -/
def sread {α : Type} (σ : PStore α) (r : Nat) : List (String × α) :=
  σ.getD r []

/-- Mutate the dict behind a reference in place. -/
def swrite {α : Type} (σ : PStore α) (r : Nat) (v : List (String × α)) :
    PStore α :=
  σ.set r v

/-- Allocate a fresh dict (`dict.copy()` allocates), returning its
reference. -/
def salloc {α : Type} (σ : PStore α) (v : List (String × α)) :
    PStore α × Nat :=
  (σ ++ [v], σ.length)

theorem getD_set_self {β : Type} :
    ∀ (l : List β) (r : Nat) (v d : β), r < l.length →
      (l.set r v).getD r d = v := by
  intro l
  induction l with
  | nil => intro r v d h; simp at h
  | cons x xs ih =>
    intro r v d h
    cases r with
    | zero => rfl
    | succ n =>
      simp only [List.set_cons_succ]
      exact ih n v d (by simpa using h)

theorem getD_set_ne {β : Type} :
    ∀ (l : List β) (r q : Nat) (v d : β), r ≠ q →
      (l.set r v).getD q d = l.getD q d := by
  intro l
  induction l with
  | nil => intro r q v d _; simp [List.set]
  | cons x xs ih =>
    intro r q v d hne
    cases r with
    | zero =>
      cases q with
      | zero => exact absurd rfl hne
      | succ m => rfl
    | succ n =>
      cases q with
      | zero => rfl
      | succ m =>
        simp only [List.set_cons_succ]
        exact ih n m v d (fun hx => hne (by rw [hx]))

theorem getD_append_lt {β : Type} :
    ∀ (l t : List β) (q : Nat) (d : β), q < l.length →
      (l ++ t).getD q d = l.getD q d := by
  intro l
  induction l with
  | nil => intro t q d h; simp at h
  | cons x xs ih =>
    intro t q d h
    cases q with
    | zero => rfl
    | succ n => exact ih t n d (by simpa using h)

theorem getD_append_self {β : Type} :
    ∀ (l : List β) (v d : β), (l ++ [v]).getD l.length d = v := by
  intro l
  induction l with
  | nil => intro v d; rfl
  | cons x xs ih => intro v d; exact ih v d

/-- Store-level `_prepare_params` (`src/connectors/elexon/api_client.py`
lines 100-121): mutates the dict behind `r` in place and returns it. -/
def prepareParamsSt (c : ElexonApiClient) (σ : PStore String) (r : Nat) :
    Except PyErr (PStore String × Nat) :=
  if c.isPublic then
    let ps := sread σ r
    if (pget ps "format").isNone then
      .ok (swrite σ r (pset ps "format" "json"), r)
    else
      .ok (σ, r)
  else if c.apiKey = "" then
    .error .valueError
  else
    .ok (swrite σ r
      (pset (pset (sread σ r) "APIKey" c.apiKey) "ServiceType" "xml"), r)

/-- Store-level parameter preparation of `make_request`
(`src/connectors/elexon/api_client.py` lines 50-51): copy the caller's dict
first (`params.copy()` allocates a fresh dict at reference `σ.length`), then
run `_prepare_params` on the copy. -/
def makeRequestParamsSt (c : ElexonApiClient) (σ : PStore String) (r : Nat) :
    Except PyErr (PStore String × Nat) :=
  prepareParamsSt c (σ ++ [sread σ r]) σ.length

/-- Store-level `build_params_for_report`
(`src/connectors/elexon/parameter_builder.py` lines 29-46): copy the
descriptor's static params, then extend the copy. -/
def elexonPBParamsForReportSt (code : Option String) (s e : Nat)
    (σ : PStore String) (r : Nat) : PStore String × Nat :=
  if code = some "B1610" ∨ code = some "B1620" then
    let ps := sread σ r
    let ps := pset ps "from" (dateStr s)
    let ps := pset ps "to" (dateStr e)
    let ps := pset ps "settlementPeriodFrom"
      ((pget ps "settlementPeriodFrom").getD "1")
    let ps := pset ps "settlementPeriodTo"
      ((pget ps "settlementPeriodTo").getD "36")
    let ps := pset ps "format" "json"
    (swrite (σ ++ [sread σ r]) σ.length ps, σ.length)
  else
    (σ ++ [sread σ r], σ.length)

/-- Store-level `build_params_for_day`
(`src/connectors/entsoe/parameter_builder.py` lines 13-31): copy the
descriptor's static params, then extend the copy with the document type,
the day's period bounds, and the domain params. -/
def entsoeBuildParamsForDaySt (dtv : Option String)
    (dps : List (String × Cfg)) (d : Nat) (σ : PStore Cfg) (r : Nat) :
    PStore Cfg × Nat :=
  let ps := sread σ r
  let ps :=
    match dtv with
    | some x => pset ps "documentType" (.str x)
    | none => ps
  let ps := pset ps "periodStart" (.str (entsoeDT d))
  let ps := pset ps "periodEnd" (.str (entsoeDT (d + 1)))
  let ps := dps.foldl (fun acc kv => pset acc kv.1 kv.2) ps
  (swrite (σ ++ [sread σ r]) σ.length ps, σ.length)

theorem sread_swrite_self {α : Type} (σ : PStore α) (r : Nat)
    (v : List (String × α)) (h : r < σ.length) :
    sread (swrite σ r v) r = v :=
  getD_set_self σ r v [] h

theorem sread_swrite_ne {α : Type} (σ : PStore α) (r q : Nat)
    (v : List (String × α)) (h : r ≠ q) :
    sread (swrite σ r v) q = sread σ q :=
  getD_set_ne σ r q v [] h

theorem sread_append_lt {α : Type} (σ t : PStore α) (q : Nat)
    (h : q < σ.length) : sread (σ ++ t) q = sread σ q :=
  getD_append_lt σ t q [] h

theorem sread_append_self {α : Type} (σ : PStore α)
    (v : List (String × α)) : sread (σ ++ [v]) σ.length = v :=
  getD_append_self σ v []

/-- C9: the API client and the parameter builders leave the caller's dicts
unchanged. `make_request` copies the params before merging dialect
parameters (so every reference the caller held reads the same after the
call, and the prepared dict is exactly the pure preparation of the caller's
value); both builders copy the descriptor's static params before adding date
and format keys (same frame property, and the built dict is the pure build
of the caller's value), so running the builder again over the same
descriptor yields the same parameters. -/
theorem c9_caller_dicts_unchanged :
    (∀ (c : ElexonApiClient) (σ : PStore String) (r : Nat)
        (σ' : PStore String) (r' : Nat),
      makeRequestParamsSt c σ r = .ok (σ', r') →
      (∀ q, q < σ.length → sread σ' q = sread σ q) ∧
      ∃ ps, prepareParams c (sread σ r) = .ok ps ∧ sread σ' r' = ps)
    ∧
    (∀ (code : Option String) (s e : Nat) (σ : PStore String) (r q : Nat),
      q < σ.length →
      sread (elexonPBParamsForReportSt code s e σ r).1 q = sread σ q)
    ∧
    (∀ (code : Option String) (s e : Nat) (σ : PStore String) (r : Nat),
      sread (elexonPBParamsForReportSt code s e σ r).1
          (elexonPBParamsForReportSt code s e σ r).2 =
        elexonPBParamsForReport
          ⟨"", code, none, none, sread σ r⟩ s e)
    ∧
    (∀ (code : Option String) (s e : Nat) (σ : PStore String) (r : Nat),
      r < σ.length →
      sread (elexonPBParamsForReportSt code s e
            (elexonPBParamsForReportSt code s e σ r).1 r).1
          (elexonPBParamsForReportSt code s e
            (elexonPBParamsForReportSt code s e σ r).1 r).2 =
        sread (elexonPBParamsForReportSt code s e σ r).1
          (elexonPBParamsForReportSt code s e σ r).2)
    ∧
    (∀ (dtv : Option String) (dps : List (String × Cfg)) (d : Nat)
        (σ : PStore Cfg) (r q : Nat),
      q < σ.length →
      sread (entsoeBuildParamsForDaySt dtv dps d σ r).1 q = sread σ q)
    ∧
    (∀ (dtv : Option String) (dps : List (String × Cfg)) (d : Nat)
        (σ : PStore Cfg) (r : Nat),
      sread (entsoeBuildParamsForDaySt dtv dps d σ r).1
          (entsoeBuildParamsForDaySt dtv dps d σ r).2 =
        entsoeBuildParamsForDay ⟨"", dtv, sread σ r, dps⟩ d) := by
  have hpbst : ∀ (code : Option String) (s e : Nat) (σ : PStore String)
      (r q : Nat), q < σ.length →
      sread (elexonPBParamsForReportSt code s e σ r).1 q = sread σ q := by
    intro code s e σ r q hq
    unfold elexonPBParamsForReportSt
    split
    · rw [sread_swrite_ne _ _ _ _ (by omega), sread_append_lt _ _ _ hq]
    · rw [sread_append_lt _ _ _ hq]
  have hpblink : ∀ (code : Option String) (s e : Nat) (σ : PStore String)
      (r : Nat),
      sread (elexonPBParamsForReportSt code s e σ r).1
          (elexonPBParamsForReportSt code s e σ r).2 =
        elexonPBParamsForReport ⟨"", code, none, none, sread σ r⟩ s e := by
    intro code s e σ r
    unfold elexonPBParamsForReportSt elexonPBParamsForReport
    split
    · rw [sread_swrite_self _ _ _ (by simp)]
    · rw [sread_append_self]
  refine ⟨?_, hpbst, hpblink, ?_, ?_, ?_⟩
  · intro c σ r σ' r' h
    have hcopy : sread (σ ++ [sread σ r]) σ.length = sread σ r :=
      sread_append_self σ _
    unfold makeRequestParamsSt prepareParamsSt at h
    rw [hcopy] at h
    unfold prepareParams
    by_cases hp : c.isPublic
    · rw [if_pos hp] at h ⊢
      by_cases hf : (pget (sread σ r) "format").isNone
      · rw [if_pos hf] at h ⊢
        simp only [Except.ok.injEq, Prod.mk.injEq] at h
        obtain ⟨hσ', hr'⟩ := h
        subst hσ'
        subst hr'
        refine ⟨?_, _, rfl, ?_⟩
        · intro q hq
          rw [sread_swrite_ne _ _ _ _ (by omega), sread_append_lt _ _ _ hq]
        · rw [sread_swrite_self _ _ _ (by simp)]
      · rw [if_neg hf] at h ⊢
        simp only [Except.ok.injEq, Prod.mk.injEq] at h
        obtain ⟨hσ', hr'⟩ := h
        subst hσ'
        subst hr'
        refine ⟨?_, _, rfl, ?_⟩
        · intro q hq
          rw [sread_append_lt _ _ _ hq]
        · rw [sread_append_self]
    · rw [if_neg hp] at h ⊢
      by_cases hk : c.apiKey = ""
      · rw [if_pos hk] at h
        exact absurd h (by simp)
      · rw [if_neg hk] at h ⊢
        simp only [Except.ok.injEq, Prod.mk.injEq] at h
        obtain ⟨hσ', hr'⟩ := h
        subst hσ'
        subst hr'
        refine ⟨?_, _, rfl, ?_⟩
        · intro q hq
          rw [sread_swrite_ne _ _ _ _ (by omega), sread_append_lt _ _ _ hq]
        · rw [sread_swrite_self _ _ _ (by simp)]
  · intro code s e σ r hr
    rw [hpblink, hpblink, hpbst _ _ _ _ _ _ hr]
  · intro dtv dps d σ r q hq
    unfold entsoeBuildParamsForDaySt
    rw [sread_swrite_ne _ _ _ _ (by omega), sread_append_lt _ _ _ hq]
  · intro dtv dps d σ r
    unfold entsoeBuildParamsForDaySt entsoeBuildParamsForDay
    rw [sread_swrite_self _ _ _ (by simp)]

/-- Witness for C9: after a legacy `make_request` over a one-dict heap the
caller's dict still reads `[("a","b")]`, while the prepared copy carries the
merged credentials; the range builder leaves the descriptor's static params
unchanged and builds the same dict as the pure builder. -/
theorem c9_caller_dicts_unchanged_witness :
    (sread [[("a", "b")],
        [("a", "b"), ("APIKey", "k"), ("ServiceType", "xml")]] 0 =
      sread [[("a", "b")]] 0)
    ∧ (∃ ps, prepareParams ⟨"k", "u", false⟩ (sread [[("a", "b")]] 0) = .ok ps ∧
        sread [[("a", "b")],
          [("a", "b"), ("APIKey", "k"), ("ServiceType", "xml")]] 1 = ps)
    ∧ (sread (elexonPBParamsForReportSt (some "B1610") 0 1 [[("x", "y")]] 0).1 0 =
        sread [[("x", "y")]] 0)
    ∧ (sread (elexonPBParamsForReportSt (some "B1610") 0 1 [[("x", "y")]] 0).1
          (elexonPBParamsForReportSt (some "B1610") 0 1 [[("x", "y")]] 0).2 =
        elexonPBParamsForReport ⟨"", some "B1610", none, none, [("x", "y")]⟩ 0 1) := by
  have h := c9_caller_dicts_unchanged.1 ⟨"k", "u", false⟩ [[("a", "b")]] 0
    [[("a", "b")], [("a", "b"), ("APIKey", "k"), ("ServiceType", "xml")]] 1 (by rfl)
  exact ⟨h.1 0 (by decide), h.2,
    c9_caller_dicts_unchanged.2.1 (some "B1610") 0 1 [[("x", "y")]] 0 0 (by decide),
    c9_caller_dicts_unchanged.2.2.1 (some "B1610") 0 1 [[("x", "y")]] 0⟩
